import Mathlib

/-!
Verification of the ApertureDB parallel query engine
(`aperturedb/ParallelQuery.py`, `aperturedb/CommonLibrary.py`).

The Python code is shallowly embedded: commands and responses become
structured Lean values, the mutable ref-remap table becomes an explicit
association list threaded through the recursion, and Python exceptions
become `Except` results.  The response handler is modeled as a function
from its argument tuple to a Bool telling whether the call raises.
-/

set_option maxHeartbeats 1000000

namespace ApertureDB

/-- An opaque binary payload, modeled as its byte sequence. -/
abbrev Blob := List Nat

/-- The server's result value for one command: a status code and, for
blob-returning retrieval commands, the reported count of returned items
(`none` models a response value with no "returned" key). -/
structure RespVal where
  status : Int
  returned : Option Nat := none
deriving DecidableEq

/-- One per-command response object: a dict from command name to result value. -/
abbrev RespEntry := List (String × RespVal)

/-- A transaction response: a list of per-command dicts, a single dict
(observed by the engine only through its status), or an unexpected shape. -/
inductive Response where
  | rlist (rs : List RespEntry)
  | rdict (status : Int)
  | other
deriving DecidableEq

/-- The `is_connected_to` value of a command: its optional direct "ref" and
the optional "any"/"all" lists, each element modeled by its optional "ref"
(other element contents are never touched by the engine). -/
structure ICT where
  ref : Option Nat := none
  any : Option (List (Option Nat)) := none
  all : Option (List (Option Nat)) := none
deriving DecidableEq

/-- The `connect` sub-object of a command value: its optional "ref". -/
structure ConnectSpec where
  ref : Option Nat := none
deriving DecidableEq

/-- The value object of a single command key.  `ref0` models the "_ref" key;
`blobs` models the truthiness of an explicit "blobs" request field
(`some true` = present and truthy); `payload` stands for all remaining,
never-touched operation parameters. -/
structure CmdValues where
  ref0 : Option Nat := none
  image_ref : Option Nat := none
  video_ref : Option Nat := none
  is_connected_to : Option ICT := none
  connect : Option ConnectSpec := none
  src : Option Nat := none
  dst : Option Nat := none
  ref : Option Nat := none
  blobs : Option Bool := none
  payload : Nat := 0
deriving DecidableEq

/-- A batch entry: a command dict (ordered key/value pairs; the engine reads
the first key's value for ref renumbering and iterates all keys for blob
counting), or a pre-batched sub-transaction (a Python list), which ref
renumbering treats as opaque and stops at. -/
inductive Cmd where
  | dict (entries : List (String × CmdValues))
  | sub (cmds : List (List (String × CmdValues)))
deriving DecidableEq

/-- The argument tuple of one response-handler invocation. -/
structure HandlerCall where
  query : List Cmd
  query_blobs : List Blob
  response : Response
  response_blobs : Option (List Blob)
  index : Option Nat
deriving DecidableEq

/-- Placeholder used with `List.getD` when indexing handler-call lists. -/
def dummyCall : HandlerCall := ⟨[], [], Response.other, none, none⟩

/-- An exception escaping `map_response_to_handler`: a failed response
lookup (Python KeyError/TypeError while reading `resp[k]["returned"]`), or
an exception raised by the caller-supplied handler. -/
inductive DemuxError where
  | lookupError
  | handlerError
deriving DecidableEq

/-- ParallelQuery.py line 131: the fixed set of blob-returning operations. -/
def blob_returning_commands : List String :=
  ["FindImage", "FindBlob", "FindVideo", "FindDescriptor", "FindBoundingBox"]

/-- The `b_count` contribution of one request command: iterate the request's
keys, and for each blob-returning key whose request has a truthy "blobs"
field, add the response's reported "returned" count
(ParallelQuery.py lines 130-135). -/
def entriesBlobCount (resp : RespEntry) : List (String × CmdValues) → Except DemuxError Nat
  | [] => .ok 0
  | (k, v) :: rest =>
    if k ∈ blob_returning_commands ∧ v.blobs = some true then
      match resp.lookup k with
      | none => .error .lookupError
      | some rv =>
        match rv.returned with
        | none => .error .lookupError
        | some c => (entriesBlobCount resp rest).map (fun n => c + n)
    else entriesBlobCount resp rest

/-- The `b_count` for one request command.  A pre-batched list contributes 0:
Python iterates its elements, none of which equals a command-name string. -/
def cmdBlobCount (req : Cmd) (resp : RespEntry) : Except DemuxError Nat :=
  match req with
  | .sub _ => .ok 0
  | .dict entries => entriesBlobCount resp entries

/-- The `b_count` for one group: the zipped request/response slices in order. -/
def pairsBlobCount : List (Cmd × RespEntry) → Except DemuxError Nat
  | [] => .ok 0
  | (req, resp) :: rest => do
    let c ← cmdBlobCount req resp
    let r ← pairsBlobCount rest
    .ok (c + r)

/-- The response argument handed to the handler: the group's slice when the
response is a list, the whole response otherwise (lines 142-143). -/
def respSlice (resp : Response) (start cpq : Nat) : Response :=
  match resp with
  | .rlist rs => .rlist ((rs.drop start).take cpq)
  | r => r

/-- The `b_count` of the group starting at `start` (lines 127-135): 0 when
the response is not a list. -/
def groupBCount (query : List Cmd) (response : Response) (cpq start : Nat) :
    Except DemuxError Nat :=
  match response with
  | .rlist rs => pairsBlobCount (((query.drop start).take cpq).zip ((rs.drop start).take cpq))
  | _ => .ok 0

/-- Lines 144-145: the output-blob slice handed to the handler, `none` when
fewer output blobs remain than the group's width. -/
def sliceOrNone (response_blobs : List Blob) (br bc : Nat) : Option (List Blob) :=
  if br + bc ≤ response_blobs.length
  then some ((response_blobs.drop br).take bc) else none

/-- The handler argument tuple of group `i` (lines 139-146). -/
def mkGroupCall (query : List Cmd) (query_blobs : List Blob) (response : Response)
    (response_blobs : List Blob) (cpq bpq i br bc : Nat) (ci : Option Nat) : HandlerCall :=
  { query := (query.drop (i * cpq)).take cpq
    query_blobs := (query_blobs.drop (i * bpq)).take bpq
    response := respSlice response (i * cpq) cpq
    response_blobs := sliceOrNone response_blobs br bc
    index := ci.map (fun c => c + i) }

/-- The demultiplexer loop of `ParallelQuery.map_response_to_handler`
(lines 120-147), with `k` remaining groups, current group index `i` and
running output-blob cursor `br` (`blobs_returned`).  Produces the list of
handler invocations; `handler call = true` models the handler raising. -/
def demuxFrom (handler : HandlerCall → Bool) (query : List Cmd) (query_blobs : List Blob)
    (response : Response) (response_blobs : List Blob) (cpq bpq : Nat) (ci : Option Nat) :
    Nat → Nat → Nat → Except DemuxError (List HandlerCall)
  | 0, _, _ => .ok []
  | k + 1, i, br => do
    let bc ← groupBCount query response cpq (i * cpq)
    let call := mkGroupCall query query_blobs response response_blobs cpq bpq i br bc ci
    if handler call then .error .handlerError
    else
      Except.map (fun rest => call :: rest)
        (demuxFrom handler query query_blobs response response_blobs cpq bpq ci k (i + 1) (br + bc))

/-- The class method `ParallelQuery.map_response_to_handler`: iterate
`math.ceil(len(query) / commands_per_query)` groups.  For
`commands_per_query > 0` the ceiling equals the Nat expression below
(Python raises ZeroDivisionError at 0; theorems assume positivity). -/
def map_response_to_handler (handler : HandlerCall → Bool) (query : List Cmd)
    (query_blobs : List Blob) (response : Response) (response_blobs : List Blob)
    (commands_per_query blobs_per_query : Nat) (cmd_index_offset : Option Nat) :
    Except DemuxError (List HandlerCall) :=
  demuxFrom handler query query_blobs response response_blobs
    commands_per_query blobs_per_query cmd_index_offset
    ((query.length + commands_per_query - 1) / commands_per_query) 0 0

/-- Declarative width contribution of one request key: the server-reported
returned-count when the key is blob-returning and asked for blobs. -/
def specEntryWidth (resp : RespEntry) (kv : String × CmdValues) : Nat :=
  if kv.1 ∈ blob_returning_commands ∧ kv.2.blobs = some true then
    ((resp.lookup kv.1).bind RespVal.returned).getD 0
  else 0

/-- Declarative restatement of a command's output-blob width, used to state
the claims: the sum of the server-reported returned-counts over the request's
blob-returning keys with a truthy "blobs" field. -/
def specCmdWidth (req : Cmd) (resp : RespEntry) : Nat :=
  match req with
  | .sub _ => 0
  | .dict entries => (entries.map (specEntryWidth resp)).sum

/-- Declarative width of group `g` for a list-shaped response. -/
def specGroupWidth (query : List Cmd) (rs : List RespEntry) (cpq g : Nat) : Nat :=
  ((((query.drop (g * cpq)).take cpq).zip ((rs.drop (g * cpq)).take cpq)).map
    fun p => specCmdWidth p.1 p.2).sum

/-- Declarative width of group `g` (0 for a non-list response). -/
def specWidth (query : List Cmd) (resp : Response) (cpq g : Nat) : Nat :=
  match resp with
  | .rlist rs => specGroupWidth query rs cpq g
  | _ => 0

/-- The output-blob cursor before group `g`: the sum of all previous
groups' widths. -/
def specCursor (query : List Cmd) (resp : Response) (cpq g : Nat) : Nat :=
  ((List.range g).map (specWidth query resp cpq)).sum

/-- The observable behavior of one `db.query` transport call:
the response, the returned blobs, `last_query_ok()`, and
`get_last_query_time()`. -/
structure DBResult where
  response : Response
  out_blobs : List Blob
  ok : Bool
  time : Nat
deriving DecidableEq

/-- The transport, as a deterministic oracle from the submitted commands and
blobs to the call's observable behavior. -/
abbrev QueryOracle := List Cmd → List Blob → DBResult

/-- The per-command statuses collected by `execute_batch` lines 65-75:
a dict response contributes its own status, a list response every status of
every key of every element; `none` models the "unexpected format" branch. -/
def responseStatuses : Response → Option (List Int)
  | .rdict s => some [s]
  | .rlist rs => some (rs.map (fun entry => entry.map (fun kv => kv.2.status))).flatten
  | .other => none

/-- The module-level `execute_batch` (ParallelQuery.py lines 18-89).  Returns the
`(result, response, blobs)` triple, or the handler/demux exception that was
re-raised under strict validation. -/
def execute_batch (q : List Cmd) (blobs : List Blob) (db : QueryOracle)
    (success_statuses : List Int) (response_handler : Option (HandlerCall → Bool))
    (commands_per_query blobs_per_query : Nat) (strict_response_validation : Bool)
    (cmd_index : Option Nat) : Except DemuxError (Nat × Response × List Blob) :=
  let qr := db q blobs
  let r := qr.response
  let b := qr.out_blobs
  let handlerOutcome : Except DemuxError Unit :=
    if qr.ok then
      match response_handler with
      | none => .ok ()
      | some handler =>
        match map_response_to_handler handler q blobs r b
            commands_per_query blobs_per_query cmd_index with
        | .ok _ => .ok ()
        | .error e => if strict_response_validation then .error e else .ok ()
    else .ok ()
  handlerOutcome.bind fun _ =>
    let result : Nat := if qr.ok then 0 else 1
    match responseStatuses r with
    | none => .ok (1, r, b)
    | some sts =>
      if result ≠ 1 ∧ sts.any (fun s => decide (s ∉ success_statuses)) = true
      then .ok (2, r, b)
      else .ok (result, r, b)

/-- An exception escaping `update_refs`: a KeyError from an unresolvable
pointer value (RefResolutionFailure), the `assert values < 100000` failing,
or the IndexError of reading the first key of an empty dict. -/
inductive RefError where
  | keyError (w : Nat)
  | assertError
  | indexError
deriving DecidableEq

/-- The table read `updates[w]`: a KeyError when the value was never remapped. -/
def lookupRef (updates : List (Nat × Nat)) (w : Nat) : Except RefError Nat :=
  match updates.lookup w with
  | some p => .ok p
  | none => .error (.keyError w)

/-- The "_ref" step of `update_refs` (lines 192-195): record the remap,
overwrite the field with the 1-based absolute position, assert the bound. -/
def applyRef0 (updates : List (Nat × Nat)) (i : Nat) (values : CmdValues) :
    Except RefError (CmdValues × List (Nat × Nat)) :=
  match values.ref0 with
  | none => .ok (values, updates)
  | some w =>
    if i + 1 < 100000
    then .ok ({ values with ref0 := some (i + 1) }, (w, i + 1) :: updates)
    else .error .assertError

/-- Line 196-197: rewrite "image_ref" through the remap table. -/
def applyImage (updates : List (Nat × Nat)) (values : CmdValues) : Except RefError CmdValues :=
  match values.image_ref with
  | none => .ok values
  | some w => (lookupRef updates w).map fun p => { values with image_ref := some p }

/-- Line 198-199: rewrite "video_ref". -/
def applyVideo (updates : List (Nat × Nat)) (values : CmdValues) : Except RefError CmdValues :=
  match values.video_ref with
  | none => .ok values
  | some w => (lookupRef updates w).map fun p => { values with video_ref := some p }

/-- The element-wise rewrite of an "any"/"all" list (lines 203-207):
elements without a "ref" are untouched. -/
def rewriteRefList (updates : List (Nat × Nat)) : List (Option Nat) → Except RefError (List (Option Nat))
  | [] => .ok []
  | none :: rest => (rewriteRefList updates rest).map (fun l => none :: l)
  | some w :: rest => do
    let p ← lookupRef updates w
    let l ← rewriteRefList updates rest
    .ok (some p :: l)

/-- Line 201-202: the direct "ref" of "is_connected_to". -/
def ictRef (updates : List (Nat × Nat)) (ict : ICT) : Except RefError ICT :=
  match ict.ref with
  | none => .ok ict
  | some w => (lookupRef updates w).map fun p => { ict with ref := some p }

/-- Lines 203-207, op = "any". -/
def ictAny (updates : List (Nat × Nat)) (ict : ICT) : Except RefError ICT :=
  match ict.any with
  | none => .ok ict
  | some l => (rewriteRefList updates l).map fun l2 => { ict with any := some l2 }

/-- Lines 203-207, op = "all". -/
def ictAll (updates : List (Nat × Nat)) (ict : ICT) : Except RefError ICT :=
  match ict.all with
  | none => .ok ict
  | some l => (rewriteRefList updates l).map fun l2 => { ict with all := some l2 }

/-- Lines 200-207: the full "is_connected_to" rewrite. -/
def rewriteICT (updates : List (Nat × Nat)) (ict : ICT) : Except RefError ICT := do
  let ict1 ← ictRef updates ict
  let ict2 ← ictAny updates ict1
  ictAll updates ict2

/-- Lines 200-207 at command level. -/
def applyICT (updates : List (Nat × Nat)) (values : CmdValues) : Except RefError CmdValues :=
  match values.is_connected_to with
  | none => .ok values
  | some ict => (rewriteICT updates ict).map fun ict2 => { values with is_connected_to := some ict2 }

/-- Lines 208-209: the "connect"."ref" rewrite. -/
def applyConnect (updates : List (Nat × Nat)) (values : CmdValues) : Except RefError CmdValues :=
  match values.connect with
  | none => .ok values
  | some c =>
    match c.ref with
    | none => .ok values
    | some w => (lookupRef updates w).map fun p => { values with connect := some ⟨some p⟩ }

/-- Lines 210-211: "src". -/
def applySrc (updates : List (Nat × Nat)) (values : CmdValues) : Except RefError CmdValues :=
  match values.src with
  | none => .ok values
  | some w => (lookupRef updates w).map fun p => { values with src := some p }

/-- Lines 212-213: "dst". -/
def applyDst (updates : List (Nat × Nat)) (values : CmdValues) : Except RefError CmdValues :=
  match values.dst with
  | none => .ok values
  | some w => (lookupRef updates w).map fun p => { values with dst := some p }

/-- Lines 214-215: the top-level "ref". -/
def applyRefField (updates : List (Nat × Nat)) (values : CmdValues) : Except RefError CmdValues :=
  match values.ref with
  | none => .ok values
  | some w => (lookupRef updates w).map fun p => { values with ref := some p }

/-- The pointer-field rewrites of one `update_refs` iteration, in source
order (lines 196-215), all against the table as left by the "_ref" step. -/
def updatePointerFields (u1 : List (Nat × Nat)) (v1 : CmdValues) : Except RefError CmdValues := do
  let v2 ← applyImage u1 v1
  let v3 ← applyVideo u1 v2
  let v4 ← applyICT u1 v3
  let v5 ← applyConnect u1 v4
  let v6 ← applySrc u1 v5
  let v7 ← applyDst u1 v6
  applyRefField u1 v7

/-- One iteration of the `update_refs` loop on the first key's value of a
dict command, in source order: "_ref" first (so a command's own definition
is visible to its own pointer fields), then each pointer field. -/
def updateCmdValues (updates : List (Nat × Nat)) (i : Nat) (values : CmdValues) :
    Except RefError (CmdValues × List (Nat × Nat)) := do
  let (v1, u1) ← applyRef0 updates i values
  let v8 ← updatePointerFields u1 v1
  .ok (v8, u1)

/-- The `update_refs` loop (lines 185-217).  A list-shaped command triggers
the `break`: the remaining commands are returned unmodified.  A dict
command's first key's value is rewritten; its other keys are untouched. -/
def update_refs_go (updates : List (Nat × Nat)) (i : Nat) : List Cmd → Except RefError (List Cmd)
  | [] => .ok []
  | Cmd.sub cs :: rest => .ok (Cmd.sub cs :: rest)
  | Cmd.dict [] :: _ => .error .indexError
  | Cmd.dict ((k, v) :: more) :: rest => do
    let (v2, u2) ← updateCmdValues updates i v
    let rest2 ← update_refs_go u2 (i + 1) rest
    .ok (Cmd.dict ((k, v2) :: more) :: rest2)

/-- The full `update_refs`, starting from an empty remap table and position 0. -/
def update_refs (batched_commands : List Cmd) : Except RefError (List Cmd) :=
  update_refs_go [] 0 batched_commands

/-- The method `ParallelQuery.generate_batch` (lines 172-222): flatten the records'
commands, renumber refs, flatten the records' blobs. -/
def generate_batch (data : List (List Cmd × List Blob)) :
    Except RefError (List Cmd × List Blob) := do
  let q ← update_refs ((data.map Prod.fst).flatten)
  .ok (q, (data.map Prod.snd).flatten)

/-- The ref value defined by a command: the "_ref" of its first key's value. -/
def definesVal : Cmd → Option Nat
  | Cmd.dict ((_, v) :: _) => v.ref0
  | _ => none

/-- A command that is a dict with at least one key. -/
def isNonemptyDict : Cmd → Bool
  | Cmd.dict (_ :: _) => true
  | _ => false

/-- A command that is a dict with exactly one key. -/
def isSingleKeyDict : Cmd → Bool
  | Cmd.dict [_] => true
  | _ => false

/-- All pointer-field values of a command value, in source rewrite order. -/
def pointerValues (v : CmdValues) : List Nat :=
  v.image_ref.toList ++ v.video_ref.toList ++
  (match v.is_connected_to with
   | none => []
   | some ict =>
     ict.ref.toList ++ (ict.any.getD []).filterMap id ++ (ict.all.getD []).filterMap id) ++
  (match v.connect with
   | none => []
   | some c => c.ref.toList) ++
  v.src.toList ++ v.dst.toList ++ v.ref.toList

/-- Pointer-field values at command level (first key's value only, like the
renumbering loop). -/
def cmdPointerValues : Cmd → List Nat
  | Cmd.dict ((_, v) :: _) => pointerValues v
  | _ => []

/-- The largest index `t < k` at which `cmds` defines ref value `w`. -/
def lastDefBefore (cmds : List Cmd) (w : Nat) : Nat → Option Nat
  | 0 => none
  | k + 1 =>
    if definesVal (cmds.getD k (Cmd.dict [])) = some w then some k
    else lastDefBefore cmds w k

/-- Declarative remap-table lookup while processing command `j` (0-based) of
a suffix starting at absolute index `i`, with incoming table `updates`:
the most recent definition at an index `t ≤ j` wins (a command's own "_ref"
is recorded before its pointer fields are rewritten), falling back to the
incoming table. -/
def goLook (updates : List (Nat × Nat)) (i : Nat) (cmds : List Cmd) (j w : Nat) : Option Nat :=
  match lastDefBefore cmds w (j + 1) with
  | some t => some (i + t + 1)
  | none => updates.lookup w

/-- Declarative remap-table lookup for a whole batch: the 1-based absolute
position of the most recent command at index `≤ j` defining `w`. -/
def topLook (cmds : List Cmd) (j w : Nat) : Option Nat :=
  (lastDefBefore cmds w (j + 1)).map (fun t => t + 1)

/-- Expected rewrite of one optional pointer field under a declarative
lookup; `none` when the lookup fails. -/
def resolveOpt (look : Nat → Option Nat) : Option Nat → Option (Option Nat)
  | none => some none
  | some w => (look w).map some

/-- Expected rewrite of an "any"/"all" list. -/
def resolveListOpt (look : Nat → Option Nat) : List (Option Nat) → Option (List (Option Nat))
  | [] => some []
  | none :: rest => (resolveListOpt look rest).map (fun l => none :: l)
  | some w :: rest => do
    let p ← look w
    let l ← resolveListOpt look rest
    some (some p :: l)

/-- Expected rewrite of an optional "any"/"all" list. -/
def resolveOptList (look : Nat → Option Nat) : Option (List (Option Nat)) → Option (Option (List (Option Nat)))
  | none => some none
  | some l => (resolveListOpt look l).map some

/-- Expected rewrite of an "is_connected_to" object. -/
def resolveICTSpec (look : Nat → Option Nat) (ict : ICT) : Option ICT := do
  let r ← resolveOpt look ict.ref
  let a ← resolveOptList look ict.any
  let al ← resolveOptList look ict.all
  some { ref := r, any := a, all := al }

/-- Expected rewrite of an optional "is_connected_to" field. -/
def resolveICTOpt (look : Nat → Option Nat) : Option ICT → Option (Option ICT)
  | none => some none
  | some ict0 => (resolveICTSpec look ict0).map some

/-- Expected rewrite of an optional "connect" field. -/
def resolveConnectOpt (look : Nat → Option Nat) : Option ConnectSpec → Option (Option ConnectSpec)
  | none => some none
  | some c => (resolveOpt look c.ref).map (fun r => some (ConnectSpec.mk r))

/-- The expected value object after renumbering: "_ref" (when present)
overwritten with the command's 1-based absolute position `pos`, every
pointer field rewritten through `look`, everything else untouched. -/
def resolveValues (look : Nat → Option Nat) (pos : Nat) (v : CmdValues) : Option CmdValues := do
  let img ← resolveOpt look v.image_ref
  let vid ← resolveOpt look v.video_ref
  let ict ← resolveICTOpt look v.is_connected_to
  let conn ← resolveConnectOpt look v.connect
  let s ← resolveOpt look v.src
  let d ← resolveOpt look v.dst
  let rf ← resolveOpt look v.ref
  some { v with
    ref0 := v.ref0.map (fun _ => pos), image_ref := img, video_ref := vid,
    is_connected_to := ict, connect := conn, src := s, dst := d, ref := rf }

/-- The expected command after renumbering: the first key's value resolved,
other keys untouched (defined only for nonempty dict commands). -/
def resolveCmd (look : Nat → Option Nat) (pos : Nat) : Cmd → Option Cmd
  | Cmd.dict ((k, v) :: more) =>
    (resolveValues look pos v).map (fun v2 => Cmd.dict ((k, v2) :: more))
  | _ => none

/-- Per-batch counters recorded by `do_batch`. -/
structure WorkerStats where
  succeeded_commands : Nat
  succeeded_queries : Nat
  objects_existed : Nat
deriving DecidableEq

/-- An exception escaping `do_batch`: a ref-renumbering failure from
`generate_batch`, a strict-mode handler/demux exception re-raised by
`execute_batch`, or the AttributeError raised by the result-0 statistics
comprehension when the response is not a list. -/
inductive DoBatchError where
  | refError (e : RefError)
  | demuxError (e : DemuxError)
  | statsError
deriving DecidableEq

/-- Python `sum(v.status == s for i in rs for k, v in i.items())`. -/
def countStatusEq (rs : List RespEntry) (s : Int) : Nat :=
  rs.flatten.countP (fun kv => kv.2.status == s)

/-- The succeeded-queries count of the result-2 branch (lines 311-318):
the number of `cpq`-sized response chunks whose statuses are all 0. -/
def chunkZeroQueries (cpq : Nat) (rs : List RespEntry) : Nat :=
  ((List.range ((rs.length + cpq - 1) / cpq)).filter
    (fun g => ((rs.drop (g * cpq)).take cpq).all
      (fun entry => entry.all (fun kv => kv.2.status == 0)))).length

/-- The method `ParallelQuery.do_batch` (lines 230-324), returning
`(query_time, worker_stats, error_counter_delta)` or the exception it lets
escape to the worker.  On a dry run Python records `query_time = 1` and an
empty stats dict, modeled as zero counters. -/
def do_batch (db : QueryOracle) (dry_run : Bool)
    (response_handler : Option (HandlerCall → Bool)) (strict : Bool)
    (cpq bpq : Nat) (success_statuses : List Int) (batch_start : Nat)
    (data : List (List Cmd × List Blob)) : Except DoBatchError (Nat × WorkerStats × Nat) := do
  let (q, blobs) ← (generate_batch data).mapError DoBatchError.refError
  if dry_run then
    .ok (1, ⟨0, 0, 0⟩, 0)
  else
    match execute_batch q blobs db success_statuses response_handler cpq bpq strict
        (some batch_start) with
    | .error e => .error (.demuxError e)
    | .ok (result, r, _b) =>
      if result = 0 then
        match r with
        | .rlist rs =>
          .ok ((db q blobs).time, ⟨q.length, data.length, countStatusEq rs 2⟩, 0)
        | _ =>
          -- `for i in r for k, v in i.items()` on a dict iterates string
          -- keys, whose `.items()` raises AttributeError; a non-list,
          -- non-dict response is unreachable with result 0.
          .error .statsError
      else if result = 1 then
        .ok (0, ⟨0, 0, 0⟩, 1)
      else
        match r with
        | .rlist rs =>
          .ok (0, ⟨countStatusEq rs 0, chunkZeroQueries cpq rs, countStatusEq rs 2⟩, 0)
        | _ =>
          -- With a dict response `filter_per_group` sees only string keys,
          -- so every counter is 0 and the list-only `sq` loop adds nothing.
          .ok (0, ⟨0, 0, 0⟩, 0)

/-- The per-worker view of the shared mutable state: the error counter and
the append-only time/stats collections. -/
structure WorkerOutcome where
  error_counter : Nat
  times_arr : List Nat
  actual_stats : List WorkerStats
deriving DecidableEq

/-- The worker batch loop (lines 336-348): `k` remaining batches, `i` the
current batch number.  A `do_batch` exception increments the error counter
and the worker proceeds; a normal return appends its time and stats and
adds its own error delta (the result-1 path). -/
def workerGo (db : QueryOracle) (generator : List (List Cmd × List Blob))
    (dry_run : Bool) (response_handler : Option (HandlerCall → Bool)) (strict : Bool)
    (cpq bpq : Nat) (success_statuses : List Int) (batchsize start endIdx : Nat) :
    Nat → Nat → WorkerOutcome → WorkerOutcome
  | 0, _, acc => acc
  | k + 1, i, acc =>
    let batch_start := start + i * batchsize
    let batch_end := min (batch_start + batchsize) endIdx
    let data := (generator.drop batch_start).take (batch_end - batch_start)
    match do_batch db dry_run response_handler strict cpq bpq success_statuses batch_start data with
    | .ok (t, stats, errDelta) =>
      workerGo db generator dry_run response_handler strict cpq bpq success_statuses
        batchsize start endIdx k (i + 1)
        ⟨acc.error_counter + errDelta, acc.times_arr ++ [t], acc.actual_stats ++ [stats]⟩
    | .error _ =>
      workerGo db generator dry_run response_handler strict cpq bpq success_statuses
        batchsize start endIdx k (i + 1)
        ⟨acc.error_counter + 1, acc.times_arr, acc.actual_stats⟩

/-- The method `ParallelQuery.worker` (lines 326-351) over the record range
`[start, endIdx)`: `(endIdx - start) // batchsize` batches plus one for a
remainder. -/
def worker (db : QueryOracle) (generator : List (List Cmd × List Blob))
    (dry_run : Bool) (response_handler : Option (HandlerCall → Bool)) (strict : Bool)
    (cpq bpq : Nat) (success_statuses : List Int) (batchsize start endIdx : Nat) :
    WorkerOutcome :=
  let total_batches :=
    (endIdx - start) / batchsize + (if (endIdx - start) % batchsize > 0 then 1 else 0)
  workerGo db generator dry_run response_handler strict cpq bpq success_statuses
    batchsize start endIdx total_batches 0 ⟨0, [], []⟩

/-- Merge of the workers' contributions to the shared state: the error
counter is a single shared sum; times and stats are append-only lists, so
their totals and lengths are independent of interleaving order. -/
def mergeOutcomes (l : List WorkerOutcome) : WorkerOutcome :=
  l.foldl (fun acc o =>
    ⟨acc.error_counter + o.error_counter, acc.times_arr ++ o.times_arr,
     acc.actual_stats ++ o.actual_stats⟩) ⟨0, [], []⟩

/-- Modelled from the spec: the `Parallelizer.run` dispatcher (the
Parallelizer base class is not part of the sources) partitions the record
index range `[0, total)` into contiguous, batch-aligned, fixed-size worker
ranges — `ceil(total / batchsize)` batches in total, distributed
`ceil(batches / numthreads)` per worker — and every worker runs the
`worker` loop over its own range (spec §4.2, §8 scenario: 10 records,
batchSize=4, workerCount=2 execute 3 batches). -/
def run (db : QueryOracle) (generator : List (List Cmd × List Blob))
    (dry_run : Bool) (response_handler : Option (HandlerCall → Bool)) (strict : Bool)
    (cpq bpq : Nat) (success_statuses : List Int) (batchsize numthreads : Nat) :
    WorkerOutcome :=
  let total := generator.length
  let nbatches := (total + batchsize - 1) / batchsize
  let perWorker := (nbatches + numthreads - 1) / numthreads
  mergeOutcomes ((List.range numthreads).map (fun t =>
    worker db generator dry_run response_handler strict cpq bpq success_statuses
      batchsize (min (t * perWorker * batchsize) total)
      (min ((t + 1) * perWorker * batchsize) total)))

/-- Accessor `get_succeeded_queries` (lines 357-359). -/
def get_succeeded_queries (o : WorkerOutcome) : Nat :=
  (o.actual_stats.map (fun s => s.succeeded_queries)).sum

/-- Accessor `get_succeeded_commands` (lines 361-363). -/
def get_succeeded_commands (o : WorkerOutcome) : Nat :=
  (o.actual_stats.map (fun s => s.succeeded_commands)).sum

/-- Accessor `get_objects_existed` (lines 353-355). -/
def get_objects_existed (o : WorkerOutcome) : Nat :=
  (o.actual_stats.map (fun s => s.objects_existed)).sum

/-- The error percentage printed by `print_stats` (line 447):
`100 * error_counter / len(times_arr)`, as an exact rational. -/
def err_perc (o : WorkerOutcome) : ℚ :=
  100 * (o.error_counter : ℚ) / (o.times_arr.length : ℚ)

namespace CommonLibrary

/-- CommonLibrary.py lines 186-190: the same per-command blob count. -/
def entriesBlobCount (resp : RespEntry) : List (String × CmdValues) → Except DemuxError Nat
  | [] => .ok 0
  | (k, v) :: rest =>
    if k ∈ blob_returning_commands ∧ v.blobs = some true then
      match resp.lookup k with
      | none => .error .lookupError
      | some rv =>
        match rv.returned with
        | none => .error .lookupError
        | some c => (entriesBlobCount resp rest).map (fun n => c + n)
    else entriesBlobCount resp rest

def cmdBlobCount (req : Cmd) (resp : RespEntry) : Except DemuxError Nat :=
  match req with
  | .sub _ => .ok 0
  | .dict entries => entriesBlobCount resp entries

def pairsBlobCount : List (Cmd × RespEntry) → Except DemuxError Nat
  | [] => .ok 0
  | (req, resp) :: rest => do
    let c ← cmdBlobCount req resp
    let r ← pairsBlobCount rest
    .ok (c + r)

/-- CommonLibrary.py lines 182-190: the group blob count. -/
def groupBCount (query : List Cmd) (response : Response) (cpq start : Nat) :
    Except DemuxError Nat :=
  match response with
  | .rlist rs => pairsBlobCount (((query.drop start).take cpq).zip ((rs.drop start).take cpq))
  | _ => .ok 0

/-- The loop of the module-level `map_response_to_handler`
(CommonLibrary.py lines 175-202); its group-call construction (lines
194-201) is line-identical to ParallelQuery's, so `mkGroupCall` is shared. -/
def demuxFrom (handler : HandlerCall → Bool) (query : List Cmd) (query_blobs : List Blob)
    (response : Response) (response_blobs : List Blob) (cpq bpq : Nat) (ci : Option Nat) :
    Nat → Nat → Nat → Except DemuxError (List HandlerCall)
  | 0, _, _ => .ok []
  | k + 1, i, br => do
    let bc ← groupBCount query response cpq (i * cpq)
    let call := mkGroupCall query query_blobs response response_blobs cpq bpq i br bc ci
    if handler call then .error .handlerError
    else
      Except.map (fun rest => call :: rest)
        (demuxFrom handler query query_blobs response response_blobs cpq bpq ci k (i + 1) (br + bc))

/-- The module-level `map_response_to_handler` (lines 171-202). -/
def map_response_to_handler (handler : HandlerCall → Bool) (query : List Cmd)
    (query_blobs : List Blob) (response : Response) (response_blobs : List Blob)
    (commands_per_query blobs_per_query : Nat) (cmd_index_offset : Option Nat) :
    Except DemuxError (List HandlerCall) :=
  demuxFrom handler query query_blobs response response_blobs
    commands_per_query blobs_per_query cmd_index_offset
    ((query.length + commands_per_query - 1) / commands_per_query) 0 0

/-- CommonLibrary.py lines 144-154: the status collection of `execute_query`. -/
def responseStatuses : Response → Option (List Int)
  | .rdict s => some [s]
  | .rlist rs => some (rs.map (fun entry => entry.map (fun kv => kv.2.status))).flatten
  | .other => none

/-- The standalone `execute_query` (CommonLibrary.py lines 97-168). -/
def execute_query (q : List Cmd) (blobs : List Blob) (db : QueryOracle)
    (success_statuses : List Int) (response_handler : Option (HandlerCall → Bool))
    (commands_per_query blobs_per_query : Nat) (strict_response_validation : Bool)
    (cmd_index : Option Nat) : Except DemuxError (Nat × Response × List Blob) :=
  let qr := db q blobs
  let r := qr.response
  let b := qr.out_blobs
  let handlerOutcome : Except DemuxError Unit :=
    if qr.ok then
      match response_handler with
      | none => .ok ()
      | some handler =>
        match map_response_to_handler handler q blobs r b
            commands_per_query blobs_per_query cmd_index with
        | .ok _ => .ok ()
        | .error e => if strict_response_validation then .error e else .ok ()
    else .ok ()
  handlerOutcome.bind fun _ =>
    let result : Nat := if qr.ok then 0 else 1
    match responseStatuses r with
    | none => .ok (1, r, b)
    | some sts =>
      if result ≠ 1 ∧ sts.any (fun s => decide (s ∉ success_statuses)) = true
      then .ok (2, r, b)
      else .ok (result, r, b)

end CommonLibrary

/-! Concrete instances used to exercise the theorems. -/

/-- A two-group batch: a FindImage that asked for blobs, then an AddEntity. -/
def c1Query : List Cmd :=
  [Cmd.dict [("FindImage", ({ blobs := some true } : CmdValues))],
   Cmd.dict [("AddEntity", ({} : CmdValues))]]

/-- Matching responses: the FindImage reports returned=3. -/
def c1Resp : List RespEntry :=
  [[("FindImage", ({ status := 0, returned := some 3 } : RespVal))],
   [("AddEntity", ({ status := 0 } : RespVal))]]

/-- Four output blobs: enough for the width-3 first group. -/
def c1OutBlobs : List Blob := [[1], [2], [3], [4]]

/-- The two handler calls produced for `c1Query`: a width-3 slice starting
at cursor 0, then a width-0 slice starting at cursor 3. -/
def c1Calls : List HandlerCall :=
  [{ query := [Cmd.dict [("FindImage", ({ blobs := some true } : CmdValues))]]
     query_blobs := []
     response := Response.rlist [[("FindImage", ({ status := 0, returned := some 3 } : RespVal))]]
     response_blobs := some [[1], [2], [3]]
     index := none },
   { query := [Cmd.dict [("AddEntity", ({} : CmdValues))]]
     query_blobs := []
     response := Response.rlist [[("AddEntity", ({ status := 0 } : RespVal))]]
     response_blobs := some []
     index := none }]

/-- Two input blobs: one per group when `blobs_per_query = 1`. -/
def c4QueryBlobs : List Blob := [[5], [6]]

/-- The handler calls for `c1Query` with `blobs_per_query = 1` and input
blobs `c4QueryBlobs`. -/
def c4Calls : List HandlerCall :=
  [{ query := [Cmd.dict [("FindImage", ({ blobs := some true } : CmdValues))]]
     query_blobs := [[5]]
     response := Response.rlist [[("FindImage", ({ status := 0, returned := some 3 } : RespVal))]]
     response_blobs := some [[1], [2], [3]]
     index := none },
   { query := [Cmd.dict [("AddEntity", ({} : CmdValues))]]
     query_blobs := [[6]]
     response := Response.rlist [[("AddEntity", ({ status := 0 } : RespVal))]]
     response_blobs := some []
     index := none }]

/-- A single too-short output-blob stream for the same batch. -/
def c6OutBlobs : List Blob := [[9]]

/-- The handler calls for the short stream: both groups get `none`. -/
def c6Calls : List HandlerCall :=
  [{ query := [Cmd.dict [("FindImage", ({ blobs := some true } : CmdValues))]]
     query_blobs := []
     response := Response.rlist [[("FindImage", ({ status := 0, returned := some 3 } : RespVal))]]
     response_blobs := none
     index := none },
   { query := [Cmd.dict [("AddEntity", ({} : CmdValues))]]
     query_blobs := []
     response := Response.rlist [[("AddEntity", ({ status := 0 } : RespVal))]]
     response_blobs := none
     index := none }]

/-- A transport whose response is neither a dict nor a list although the
transaction succeeded. -/
def c3Oracle : QueryOracle := fun _ _ => ⟨Response.other, [], true, 0⟩

/-- Two records with record-local refs 10 and 20; the second points at the
first through `image_ref`. -/
def c2Data : List (List Cmd × List Blob) :=
  [([Cmd.dict [("AddImage", ({ ref0 := some 10 } : CmdValues))]], [[7]]),
   ([Cmd.dict [("AddBoundingBox", ({ ref0 := some 20, image_ref := some 10 } : CmdValues))]], [[8]])]

/-- The flattened commands of `c2Data`. -/
def c2Cmds : List Cmd :=
  [Cmd.dict [("AddImage", ({ ref0 := some 10 } : CmdValues))],
   Cmd.dict [("AddBoundingBox", ({ ref0 := some 20, image_ref := some 10 } : CmdValues))]]

/-- The renumbered batch: refs become absolute positions 1 and 2, the
pointer resolves to 1. -/
def c2Q : List Cmd :=
  [Cmd.dict [("AddImage", ({ ref0 := some 1 } : CmdValues))],
   Cmd.dict [("AddBoundingBox", ({ ref0 := some 2, image_ref := some 1 } : CmdValues))]]

/-- A record whose only command both defines `_ref = 5` and points at 5
through `src`: no EARLIER command defines 5, yet assembly succeeds because
the command's own definition is remapped first. -/
def c5SelfData : List (List Cmd × List Blob) :=
  [([Cmd.dict [("AddImage", ({ ref0 := some 5, src := some 5 } : CmdValues))]], [])]

/-- A batch starting with a pre-batched list command followed by a dict
with an undefined pointer: the `break` skips the dict, so no error. -/
def c5SubData : List (List Cmd × List Blob) :=
  [([Cmd.sub [], Cmd.dict [("AddEntity", ({ src := some 9 } : CmdValues))]], [])]

/-- Two records: the first has an undefined pointer (`src = 7`), the second
is clean. -/
def c5Gen : List (List Cmd × List Blob) :=
  [([Cmd.dict [("FindImage", ({ src := some 7 } : CmdValues))]], []),
   ([Cmd.dict [("AddEntity", ({} : CmdValues))]], [])]

/-- A transport that always succeeds with one status-0 entry per command. -/
def okOracle : QueryOracle := fun q _ =>
  ⟨Response.rlist (q.map fun _ => [("AddEntity", ({ status := 0 } : RespVal))]), [], true, 5⟩

/-- Ten one-command records, distinguished by an opaque payload. -/
def c7Records : List (List Cmd × List Blob) :=
  (List.range 10).map fun n => ([Cmd.dict [("AddEntity", ({ payload := n } : CmdValues))]], [])

/-- A transport that rejects exactly the transaction containing the record
with payload `failPayload` and answers every other transaction with
status-0 entries. -/
def c7Oracle (failPayload : Nat) : QueryOracle := fun q _ =>
  if q.any (fun c => match c with
      | Cmd.dict ((_, v) :: _) => v.payload == failPayload
      | _ => false) then
    ⟨Response.rlist (q.map fun _ => [("AddEntity", ({ status := -1 } : RespVal))]), [], false, 5⟩
  else
    ⟨Response.rlist (q.map fun _ => [("AddEntity", ({ status := 0 } : RespVal))]), [], true, 5⟩

/-- One clean one-command record. -/
def c8Gen : List (List Cmd × List Blob) :=
  [([Cmd.dict [("AddEntity", ({} : CmdValues))]], [])]

/-- The flattened command list of `c8Gen`. -/
def c8Query : List Cmd := [Cmd.dict [("AddEntity", ({} : CmdValues))]]

/-- A handler that always raises. -/
def c8Handler : HandlerCall → Bool := fun _ => true

/-- A command that defines a ref (and nothing else). -/
def c9Cmd : Cmd := Cmd.dict [("AddEntity", ({ ref0 := some 1 } : CmdValues))]

/-- One record of 100000 ref-defining commands: the last one is assigned
absolute position 100000, tripping the assertion. -/
def c9Data : List (List Cmd × List Blob) :=
  [(List.replicate 100000 c9Cmd, [])]

/-! ## Demultiplexer lemmas -/

theorem entriesBlobCount_ok (resp : RespEntry) (entries : List (String × CmdValues)) :
    ∀ n, entriesBlobCount resp entries = .ok n →
      n = (entries.map (specEntryWidth resp)).sum := by
  induction entries with
  | nil =>
    intro n h
    simp only [entriesBlobCount] at h
    cases h
    simp
  | cons kv rest ih =>
    intro n h
    obtain ⟨k, v⟩ := kv
    simp only [entriesBlobCount] at h
    by_cases hcond : k ∈ blob_returning_commands ∧ v.blobs = some true
    · rw [if_pos hcond] at h
      cases hl : List.lookup k resp with
      | none => simp only [hl] at h; exact Except.noConfusion h
      | some rv =>
        simp only [hl] at h
        cases hr : rv.returned with
        | none => simp only [hr] at h; exact Except.noConfusion h
        | some c =>
          simp only [hr] at h
          cases he : entriesBlobCount resp rest with
          | error e => simp only [he, Except.map] at h; exact Except.noConfusion h
          | ok m =>
            simp only [he, Except.map, Except.ok.injEq] at h
            subst h
            simp [specEntryWidth, hcond, hl, hr, ih m he]
    · rw [if_neg hcond] at h
      simp [specEntryWidth, hcond, ih n h]

theorem cmdBlobCount_ok (req : Cmd) (resp : RespEntry) (n : Nat)
    (h : cmdBlobCount req resp = .ok n) : n = specCmdWidth req resp := by
  cases req with
  | sub cs => simp only [cmdBlobCount] at h; cases h; rfl
  | dict entries =>
    simp only [cmdBlobCount] at h
    rw [specCmdWidth]
    exact entriesBlobCount_ok resp entries n h

theorem pairsBlobCount_ok (l : List (Cmd × RespEntry)) :
    ∀ n, pairsBlobCount l = .ok n → n = (l.map fun p => specCmdWidth p.1 p.2).sum := by
  induction l with
  | nil =>
    intro n h
    simp only [pairsBlobCount] at h
    cases h
    simp
  | cons p rest ih =>
    intro n h
    obtain ⟨req, resp⟩ := p
    simp only [pairsBlobCount, bind, Except.bind] at h
    cases hc : cmdBlobCount req resp with
    | error e => rw [hc] at h; cases h
    | ok c =>
      rw [hc] at h
      cases hr : pairsBlobCount rest with
      | error e => rw [hr] at h; cases h
      | ok m =>
        rw [hr] at h
        cases h
        simp [cmdBlobCount_ok req resp c hc, ih m hr]

theorem range_map_sum_shift (f : Nat → Nat) (i : Nat) :
    ∀ g, ((List.range (g + 1)).map (fun t => f (i + t))).sum
      = f i + ((List.range g).map (fun t => f (i + 1 + t))).sum := by
  intro g
  induction g with
  | zero => simp [show List.range 1 = [0] from rfl]
  | succ g ih =>
    have h1 := List.range_succ (g + 1)
    have h2 := List.range_succ g
    rw [h1, List.map_append, List.sum_append, ih, h2, List.map_append, List.sum_append]
    have h3 : i + (g + 1) = i + 1 + g := by omega
    simp [h3]
    omega

/-- Structure of a successful demultiplexer run: one handler call per group,
group `g` receiving the `g`-th command/input-blob slices and an output-blob
slice starting at the running cursor (the sum of all previous groups'
widths) of exactly the group's width — or `none` on overrun. -/
theorem demuxFrom_ok (hd : HandlerCall → Bool) (q : List Cmd) (qb : List Blob)
    (resp : Response) (rb : List Blob) (cpq bpq : Nat) (ci : Option Nat) :
    ∀ (k i br : Nat) (calls : List HandlerCall),
      demuxFrom hd q qb resp rb cpq bpq ci k i br = .ok calls →
      calls.length = k ∧
      (calls.map (fun c => c.query)).flatten = (q.drop (i * cpq)).take (k * cpq) ∧
      (calls.map (fun c => c.query_blobs)).flatten = (qb.drop (i * bpq)).take (k * bpq) ∧
      ∀ g, g < k →
        (calls.getD g dummyCall).query = (q.drop ((i + g) * cpq)).take cpq ∧
        (calls.getD g dummyCall).query_blobs = (qb.drop ((i + g) * bpq)).take bpq ∧
        (calls.getD g dummyCall).response = respSlice resp ((i + g) * cpq) cpq ∧
        (calls.getD g dummyCall).response_blobs =
          (if br + ((List.range g).map (fun t => specWidth q resp cpq (i + t))).sum
              + specWidth q resp cpq (i + g) ≤ rb.length
           then some ((rb.drop
              (br + ((List.range g).map (fun t => specWidth q resp cpq (i + t))).sum)).take
              (specWidth q resp cpq (i + g)))
           else none) := by
  intro k
  induction k with
  | zero =>
    intro i br calls h
    simp only [demuxFrom] at h
    cases h
    refine ⟨rfl, by simp, by simp, ?_⟩
    intro g hg
    omega
  | succ k ih =>
    intro i br calls h
    simp only [demuxFrom, bind, Except.bind] at h
    cases hbc : groupBCount q resp cpq (i * cpq) with
    | error e => rw [hbc] at h; exact Except.noConfusion h
    | ok bc =>
      rw [hbc] at h
      have hw : bc = specWidth q resp cpq i := by
        cases resp with
        | rlist rs =>
          simp only [groupBCount] at hbc
          simp only [specWidth, specGroupWidth]
          exact pairsBlobCount_ok _ bc hbc
        | rdict s => simp only [groupBCount] at hbc; cases hbc; rfl
        | other => simp only [groupBCount] at hbc; cases hbc; rfl
      dsimp only at h
      split at h
      · exact Except.noConfusion h
      · cases hrec : demuxFrom hd q qb resp rb cpq bpq ci k (i + 1) (br + bc) with
        | error e => rw [hrec] at h; exact Except.noConfusion h
        | ok rest =>
          rw [hrec] at h
          simp only [Except.map, Except.ok.injEq] at h
          subst h
          obtain ⟨hlen, hjq, hjb, hgroups⟩ := ih (i + 1) (br + bc) rest hrec
          refine ⟨by simp [hlen], ?_, ?_, ?_⟩
          · simp only [List.map_cons, List.flatten_cons, hjq, mkGroupCall]
            have hd1 : (q.drop (i * cpq)).drop cpq = q.drop ((i + 1) * cpq) := by
              rw [List.drop_drop]
              congr 1
              ring
            rw [← hd1, ← List.take_add]
            congr 1
            ring
          · simp only [List.map_cons, List.flatten_cons, hjb, mkGroupCall]
            have hd1 : (qb.drop (i * bpq)).drop bpq = qb.drop ((i + 1) * bpq) := by
              rw [List.drop_drop]
              congr 1
              ring
            rw [← hd1, ← List.take_add]
            congr 1
            ring
          · intro g hg
            cases g with
            | zero =>
              refine ⟨?_, ?_, ?_, ?_⟩ <;>
                simp [mkGroupCall, sliceOrNone, hw]
            | succ g =>
              have hg2 : g < k := by omega
              obtain ⟨g1, g2, g3, g4⟩ := hgroups g hg2
              have hidx : i + 1 + g = i + (g + 1) := by omega
              refine ⟨?_, ?_, ?_, ?_⟩
              · simpa [hidx] using g1
              · simpa [hidx] using g2
              · simpa [hidx] using g3
              · rw [List.getD_cons_succ, g4, hidx]
                rw [range_map_sum_shift (specWidth q resp cpq) i g]
                rw [hw]
                simp [Nat.add_assoc]

/-- The cursor advances past group `g` by exactly group `g`'s width. -/
theorem specCursor_succ (q : List Cmd) (resp : Response) (cpq g : Nat) :
    specCursor q resp cpq (g + 1) = specCursor q resp cpq g + specWidth q resp cpq g := by
  simp [specCursor, List.range_succ]

/-- Bound `len ≤ ceil(len / cpq) * cpq` for positive `cpq`. -/
theorem len_le_ceil_mul (len cpq : Nat) (h : 0 < cpq) :
    len ≤ ((len + cpq - 1) / cpq) * cpq := by
  have h1 : len + cpq - 1 < (len + cpq - 1) / cpq * cpq + cpq := Nat.lt_div_mul_add h
  generalize hM : (len + cpq - 1) / cpq * cpq = M at h1 ⊢
  omega

/-- C1: in a demultiplexer run over a list-shaped response, every group `g`
receives the `g`-th slice of `commands_per_query` consecutive commands, and
(when enough output blobs remain) an output-blob slice that starts at the
running cursor — the sum of all previous groups' widths — and has width
equal to the sum of the server-reported returned-counts over exactly the
group's blob-returning commands that asked for blobs; the cursor then
advances by that width. -/
theorem c1_output_blob_slices (hd : HandlerCall → Bool) (q : List Cmd) (qb : List Blob)
    (rs : List RespEntry) (rb : List Blob) (cpq bpq : Nat) (ci : Option Nat)
    (calls : List HandlerCall) (hcpq : 0 < cpq)
    (h : map_response_to_handler hd q qb (.rlist rs) rb cpq bpq ci = .ok calls)
    (g : Nat) (hg : g < calls.length)
    (henough : specCursor q (.rlist rs) cpq g + specGroupWidth q rs cpq g ≤ rb.length) :
    (calls.getD g dummyCall).query = (q.drop (g * cpq)).take cpq ∧
    (calls.getD g dummyCall).response_blobs =
      some ((rb.drop (specCursor q (.rlist rs) cpq g)).take (specGroupWidth q rs cpq g)) ∧
    specCursor q (.rlist rs) cpq (g + 1) =
      specCursor q (.rlist rs) cpq g + specGroupWidth q rs cpq g := by
  obtain ⟨hlen, _, _, hgroups⟩ :=
    demuxFrom_ok hd q qb (.rlist rs) rb cpq bpq ci
      ((q.length + cpq - 1) / cpq) 0 0 calls h
  rw [hlen] at hg
  obtain ⟨g1, g2, g3, g4⟩ := hgroups g hg
  simp only [Nat.zero_add] at g1 g2 g3 g4
  refine ⟨g1, ?_, specCursor_succ q (.rlist rs) cpq g⟩
  rw [g4]
  have hcur : ((List.range g).map (fun t => specWidth q (.rlist rs) cpq t)).sum
      = specCursor q (.rlist rs) cpq g := rfl
  rw [hcur,
    if_pos (show specCursor q (.rlist rs) cpq g + specWidth q (.rlist rs) cpq g ≤ rb.length
      from henough)]
  rfl

/-- C1 witness: one blob-returning command reporting returned=3 gives its
group a slice of length 3, and the next group's slice starts 3 positions
later (and is empty here since that group returns no blobs). -/
theorem c1_output_blob_slices_witness :
    (map_response_to_handler (fun _ => false) c1Query [] (.rlist c1Resp) c1OutBlobs 1 0 none
      = .ok c1Calls) ∧
    (c1Calls.getD 0 dummyCall).response_blobs = some [[1], [2], [3]] ∧
    (c1Calls.getD 1 dummyCall).response_blobs = some ((c1OutBlobs.drop 3).take 0) := by
  have hmap : map_response_to_handler (fun _ => false) c1Query [] (.rlist c1Resp)
      c1OutBlobs 1 0 none = .ok c1Calls := by rfl
  have h0 := c1_output_blob_slices (fun _ => false) c1Query [] c1Resp c1OutBlobs 1 0 none
    c1Calls (by decide) hmap 0 (by decide) (by decide)
  have h1 := c1_output_blob_slices (fun _ => false) c1Query [] c1Resp c1OutBlobs 1 0 none
    c1Calls (by decide) hmap 1 (by decide) (by decide)
  refine ⟨hmap, ?_, ?_⟩
  · rw [h0.2.1]; rfl
  · rw [h1.2.1]; rfl

/-- C4: demultiplexing is a structural partition — concatenating the
per-group command slices reproduces the original flat command list, and,
when the input-blob list has length `groups * blobs_per_query`,
concatenating the per-group input-blob slices reproduces it exactly. -/
theorem c4_demux_partition (hd : HandlerCall → Bool) (q : List Cmd) (qb : List Blob)
    (resp : Response) (rb : List Blob) (cpq bpq : Nat) (ci : Option Nat)
    (calls : List HandlerCall) (hcpq : 0 < cpq)
    (h : map_response_to_handler hd q qb resp rb cpq bpq ci = .ok calls) :
    (calls.map (fun c => c.query)).flatten = q ∧
    (qb.length = ((q.length + cpq - 1) / cpq) * bpq →
      (calls.map (fun c => c.query_blobs)).flatten = qb) := by
  obtain ⟨hlen, hjq, hjb, _⟩ :=
    demuxFrom_ok hd q qb resp rb cpq bpq ci ((q.length + cpq - 1) / cpq) 0 0 calls h
  constructor
  · rw [hjq]
    simp only [Nat.zero_mul, List.drop_zero]
    exact List.take_of_length_le (len_le_ceil_mul q.length cpq hcpq)
  · intro hqb
    rw [hjb]
    simp only [Nat.zero_mul, List.drop_zero]
    exact List.take_of_length_le (le_of_eq hqb)

/-- C4 witness: with two groups and one input blob per group, the
concatenated slices rebuild the original commands and input blobs. -/
theorem c4_demux_partition_witness :
    (map_response_to_handler (fun _ => false) c1Query c4QueryBlobs (.rlist c1Resp) c1OutBlobs
      1 1 none = .ok c4Calls) ∧
    (c4Calls.map (fun c => c.query)).flatten = c1Query ∧
    (c4Calls.map (fun c => c.query_blobs)).flatten = c4QueryBlobs := by
  have hmap : map_response_to_handler (fun _ => false) c1Query c4QueryBlobs (.rlist c1Resp)
      c1OutBlobs 1 1 none = .ok c4Calls := by rfl
  have h := c4_demux_partition (fun _ => false) c1Query c4QueryBlobs (.rlist c1Resp) c1OutBlobs
    1 1 none c4Calls (by decide) hmap
  exact ⟨hmap, h.1, h.2 (by rfl)⟩

/-- C6: a successful demultiplexer run invokes the handler once for every
group (overruns are non-fatal), and any group whose cursor plus computed
width exceeds the output-blob stream length gets `none` as its output-blob
argument. -/
theorem c6_short_blob_stream (hd : HandlerCall → Bool) (q : List Cmd) (qb : List Blob)
    (resp : Response) (rb : List Blob) (cpq bpq : Nat) (ci : Option Nat)
    (calls : List HandlerCall) (hcpq : 0 < cpq)
    (h : map_response_to_handler hd q qb resp rb cpq bpq ci = .ok calls) :
    calls.length = (q.length + cpq - 1) / cpq ∧
    ∀ g, g < calls.length →
      rb.length < specCursor q resp cpq g + specWidth q resp cpq g →
      (calls.getD g dummyCall).response_blobs = none := by
  obtain ⟨hlen, _, _, hgroups⟩ :=
    demuxFrom_ok hd q qb resp rb cpq bpq ci ((q.length + cpq - 1) / cpq) 0 0 calls h
  refine ⟨hlen, ?_⟩
  intro g hg hshort
  rw [hlen] at hg
  obtain ⟨_, _, _, g4⟩ := hgroups g hg
  simp only [Nat.zero_add] at g4
  rw [g4]
  have hcur : ((List.range g).map (fun t => specWidth q resp cpq t)).sum
      = specCursor q resp cpq g := rfl
  rw [hcur, if_neg]
  omega

/-- C6 witness: with only one output blob against a computed width of 3,
both groups are still invoked and the first group's slice is `none`. -/
theorem c6_short_blob_stream_witness :
    (map_response_to_handler (fun _ => false) c1Query [] (.rlist c1Resp) c6OutBlobs 1 0 none
      = .ok c6Calls) ∧
    c6Calls.length = 2 ∧
    (c6Calls.getD 0 dummyCall).response_blobs = none := by
  have hmap : map_response_to_handler (fun _ => false) c1Query [] (.rlist c1Resp)
      c6OutBlobs 1 0 none = .ok c6Calls := by rfl
  have h := c6_short_blob_stream (fun _ => false) c1Query [] (.rlist c1Resp) c6OutBlobs
    1 0 none c6Calls (by decide) hmap
  exact ⟨hmap, h.1, h.2 0 (by decide) (by decide)⟩

/-! ## Executor lemmas -/

theorem bind_ok_unit {α : Type} {X : Except DemuxError Unit} {f : Unit → Except DemuxError α}
    {t : α} (h : X.bind f = .ok t) : f () = .ok t := by
  cases X with
  | error e => exact absurd h (by simp [Except.bind])
  | ok u => cases u; simpa [Except.bind] using h

/-- A successful `execute_batch` run returns exactly what the handler-free
run returns: the handler path can only swallow or re-raise exceptions. -/
theorem execute_batch_ok_drop_handler (q : List Cmd) (blobs : List Blob) (db : QueryOracle)
    (ss : List Int) (rh : Option (HandlerCall → Bool)) (cpq bpq : Nat) (st : Bool)
    (ci : Option Nat) (t : Nat × Response × List Blob)
    (h : execute_batch q blobs db ss rh cpq bpq st ci = .ok t) :
    execute_batch q blobs db ss none cpq bpq st ci = .ok t := by
  simp only [execute_batch] at h ⊢
  have h2 := bind_ok_unit h
  rw [ite_self]
  simpa [Except.bind] using h2

/-- C3 counterexample: a transport success whose response is neither a dict
nor a list still yields result 1, so "result 1 iff transport failure" is
false as stated. -/
theorem c3_result_counterexample :
    execute_batch [] [] c3Oracle [0] none 1 0 false none = .ok (1, Response.other, []) ∧
    (c3Oracle [] []).ok = true :=
  ⟨by rfl, by rfl⟩

/-- C3 (amended): whenever `execute_batch` returns, result 1 holds iff the
transport failed or the response is neither a dict nor a list; result 0 iff
the transport succeeded, the response is well-shaped and every status is in
the success set; result 2 iff the transport succeeded, the response is
well-shaped and some status falls outside the success set. -/
theorem c3_result_classification (q : List Cmd) (blobs : List Blob) (db : QueryOracle)
    (ss : List Int) (rh : Option (HandlerCall → Bool)) (cpq bpq : Nat) (st : Bool)
    (ci : Option Nat) (res : Nat) (r : Response) (b : List Blob)
    (h : execute_batch q blobs db ss rh cpq bpq st ci = .ok (res, r, b)) :
    (res = 1 ↔ ((db q blobs).ok = false ∨ responseStatuses (db q blobs).response = none)) ∧
    (res = 0 ↔ ((db q blobs).ok = true ∧
      ∃ sts, responseStatuses (db q blobs).response = some sts ∧ ∀ s ∈ sts, s ∈ ss)) ∧
    (res = 2 ↔ ((db q blobs).ok = true ∧
      ∃ sts, responseStatuses (db q blobs).response = some sts ∧ ∃ s ∈ sts, s ∉ ss)) := by
  have h0 := execute_batch_ok_drop_handler q blobs db ss rh cpq bpq st ci _ h
  simp only [execute_batch] at h0
  rw [ite_self] at h0
  simp only [Except.bind] at h0
  cases hok : (db q blobs).ok with
  | false =>
    rw [hok] at h0
    cases hsts : responseStatuses (db q blobs).response with
    | none =>
      rw [hsts] at h0
      simp only [Except.ok.injEq, Prod.mk.injEq] at h0
      obtain ⟨hres, _, _⟩ := h0
      subst hres
      refine ⟨by simp [hok], ?_, ?_⟩
      · exact iff_of_false (by omega) (fun h2 => by simp [hok] at h2)
      · exact iff_of_false (by omega) (fun h2 => by simp [hok] at h2)
    | some sts =>
      rw [hsts] at h0
      simp only [show ¬((if (false = true) then (0 : Nat) else 1) ≠ 1 ∧
        sts.any (fun s => decide (s ∉ ss)) = true) from by simp, if_neg,
        Except.ok.injEq, Prod.mk.injEq, if_false] at h0
      obtain ⟨hres, _, _⟩ := h0
      have hres1 : res = 1 := by simpa using hres.symm
      subst hres1
      refine ⟨by simp [hok], ?_, ?_⟩
      · exact iff_of_false (by omega) (fun h2 => by simp [hok] at h2)
      · exact iff_of_false (by omega) (fun h2 => by simp [hok] at h2)
  | true =>
    rw [hok] at h0
    cases hsts : responseStatuses (db q blobs).response with
    | none =>
      rw [hsts] at h0
      simp only [Except.ok.injEq, Prod.mk.injEq] at h0
      obtain ⟨hres, _, _⟩ := h0
      subst hres
      refine ⟨by simp [hsts], ?_, ?_⟩
      · exact iff_of_false (by omega) (fun h2 => by simp [hsts] at h2)
      · exact iff_of_false (by omega) (fun h2 => by simp [hsts] at h2)
    | some sts =>
      rw [hsts] at h0
      cases hany : sts.any (fun s => decide (s ∉ ss)) with
      | true =>
        simp only [hany, if_pos, Except.ok.injEq, Prod.mk.injEq,
          show ((if (true = true) then (0 : Nat) else 1) ≠ 1 ∧ True) from by simp] at h0
        have hres : res = 2 := by
          rcases h0 with ⟨hres, _⟩
          omega
        subst hres
        obtain ⟨s, hsmem, hsdec⟩ := List.any_eq_true.mp hany
        have hsnot : s ∉ ss := of_decide_eq_true hsdec
        refine ⟨iff_of_false (by omega) ?_, iff_of_false (by omega) ?_, iff_of_true rfl ?_⟩
        · rintro (h2 | h2)
          · simp [hok] at h2
          · simp at h2
        · rintro ⟨_, sts2, hsts2, hall⟩
          injection hsts2 with h3
          subst h3
          exact hsnot (hall s hsmem)
        · exact ⟨rfl, sts, rfl, s, hsmem, hsnot⟩
      | false =>
        simp only [hany, Bool.false_eq_true, and_false, if_neg, if_false,
          Except.ok.injEq, Prod.mk.injEq, not_false_eq_true] at h0
        have hres : res = 0 := by
          rcases h0 with ⟨hres, _⟩
          simpa using hres.symm
        subst hres
        have hall : ∀ s ∈ sts, s ∈ ss := by
          intro s hs
          by_contra hcon
          have : sts.any (fun s => decide (s ∉ ss)) = true :=
            List.any_eq_true.mpr ⟨s, hs, decide_eq_true hcon⟩
          rw [hany] at this
          exact Bool.noConfusion this
        refine ⟨iff_of_false (by omega) ?_, iff_of_true rfl ⟨rfl, sts, rfl, hall⟩,
          iff_of_false (by omega) ?_⟩
        · rintro (h2 | h2)
          · simp [hok] at h2
          · simp at h2
        · rintro ⟨_, sts2, hsts2, s, hsmem, hsnot⟩
          injection hsts2 with h3
          subst h3
          exact hsnot (hall s hsmem)

/-- C3 witness: a clean one-command transaction classifies as result 0 and
the amended trichotomy holds at it. -/
theorem c3_result_classification_witness :
    (execute_batch c8Query [] okOracle [0, 2] none 1 0 false none
      = .ok (0, Response.rlist [[("AddEntity", ({ status := 0 } : RespVal))]], [])) ∧
    (0 = 1 ↔ ((okOracle c8Query []).ok = false ∨
      responseStatuses (okOracle c8Query []).response = none)) := by
  have hexec : execute_batch c8Query [] okOracle [0, 2] none 1 0 false none
      = .ok (0, Response.rlist [[("AddEntity", ({ status := 0 } : RespVal))]], []) := by rfl
  exact ⟨hexec, (c3_result_classification c8Query [] okOracle [0, 2] none 1 0 false none
    0 _ [] hexec).1⟩

/-- C8: when the transport succeeded and running the handler raises, the
exception is swallowed without strict validation — `execute_batch` returns
exactly the handler-free (and always-`ok`) result — and propagates as-is
under strict validation; a worker running a strict batch whose handler
raises catches it, counts one worker error, and records no stats. -/
theorem c8_handler_exceptions :
    (∀ (q : List Cmd) (blobs : List Blob) (db : QueryOracle) (ss : List Int)
        (hd : HandlerCall → Bool) (cpq bpq : Nat) (ci : Option Nat) (e : DemuxError),
      (db q blobs).ok = true →
      map_response_to_handler hd q blobs (db q blobs).response (db q blobs).out_blobs cpq bpq ci
        = .error e →
      (execute_batch q blobs db ss (some hd) cpq bpq false ci
        = execute_batch q blobs db ss none cpq bpq false ci) ∧
      (∃ t, execute_batch q blobs db ss none cpq bpq false ci = .ok t) ∧
      execute_batch q blobs db ss (some hd) cpq bpq true ci = .error e) ∧
    worker okOracle c8Gen false (some c8Handler) true 1 0 [0, 2] 1 0 1 = ⟨1, [], []⟩ := by
  constructor
  · intro q blobs db ss hd cpq bpq ci e hok hmap
    refine ⟨?_, ?_, ?_⟩
    · simp [execute_batch, hok, hmap]
    · simp only [execute_batch]
      rw [ite_self]
      simp only [Except.bind]
      cases hsts : responseStatuses (db q blobs).response with
      | none => exact ⟨_, rfl⟩
      | some sts =>
        dsimp only
        by_cases hc : ((if ((db q blobs).ok = true) then (0 : Nat) else 1) ≠ 1 ∧
            sts.any (fun s => decide (s ∉ ss)) = true)
        · rw [if_pos hc]
          exact ⟨_, rfl⟩
        · rw [if_neg hc]
          exact ⟨_, rfl⟩
    · simp [execute_batch, hok, hmap, Except.bind]
  · rfl

/-- C8 witness: a raising handler on a clean one-command transaction leaves
the non-strict result identical to the handler-free run and propagates the
exception under strict validation. -/
theorem c8_handler_exceptions_witness :
    (map_response_to_handler c8Handler c8Query [] (okOracle c8Query []).response
      (okOracle c8Query []).out_blobs 1 0 none = .error .handlerError) ∧
    (execute_batch c8Query [] okOracle [0, 2] (some c8Handler) 1 0 false none
      = execute_batch c8Query [] okOracle [0, 2] none 1 0 false none) ∧
    execute_batch c8Query [] okOracle [0, 2] (some c8Handler) 1 0 true none
      = .error .handlerError := by
  have hmap : map_response_to_handler c8Handler c8Query [] (okOracle c8Query []).response
      (okOracle c8Query []).out_blobs 1 0 none = .error .handlerError := by rfl
  have h := c8_handler_exceptions.1 c8Query [] okOracle [0, 2] c8Handler 1 0 none
    .handlerError (by rfl) hmap
  exact ⟨hmap, h.1, h.2.2⟩

/-! ## CommonLibrary refinement -/

theorem CL_entriesBlobCount_eq (resp : RespEntry) (entries : List (String × CmdValues)) :
    CommonLibrary.entriesBlobCount resp entries = entriesBlobCount resp entries := by
  induction entries with
  | nil => rfl
  | cons kv rest ih =>
    obtain ⟨k, v⟩ := kv
    simp only [CommonLibrary.entriesBlobCount, entriesBlobCount, ih]

theorem CL_cmdBlobCount_eq (req : Cmd) (resp : RespEntry) :
    CommonLibrary.cmdBlobCount req resp = cmdBlobCount req resp := by
  cases req with
  | sub cs => rfl
  | dict entries =>
    simp only [CommonLibrary.cmdBlobCount, cmdBlobCount, CL_entriesBlobCount_eq]

theorem CL_pairsBlobCount_eq (l : List (Cmd × RespEntry)) :
    CommonLibrary.pairsBlobCount l = pairsBlobCount l := by
  induction l with
  | nil => rfl
  | cons p rest ih =>
    obtain ⟨req, resp⟩ := p
    simp only [CommonLibrary.pairsBlobCount, pairsBlobCount, CL_cmdBlobCount_eq, ih]

theorem CL_groupBCount_eq (query : List Cmd) (response : Response) (cpq start : Nat) :
    CommonLibrary.groupBCount query response cpq start = groupBCount query response cpq start := by
  cases response with
  | rlist rs => simp only [CommonLibrary.groupBCount, groupBCount, CL_pairsBlobCount_eq]
  | rdict s => rfl
  | other => rfl

theorem CL_demuxFrom_eq (hd : HandlerCall → Bool) (q : List Cmd) (qb : List Blob)
    (resp : Response) (rb : List Blob) (cpq bpq : Nat) (ci : Option Nat) :
    ∀ k i br, CommonLibrary.demuxFrom hd q qb resp rb cpq bpq ci k i br
      = demuxFrom hd q qb resp rb cpq bpq ci k i br := by
  intro k
  induction k with
  | zero => intro i br; rfl
  | succ k ih =>
    intro i br
    simp only [CommonLibrary.demuxFrom, demuxFrom, CL_groupBCount_eq, ih]

theorem CL_responseStatuses_eq (r : Response) :
    CommonLibrary.responseStatuses r = responseStatuses r := by
  cases r <;> rfl

/-- C10: the standalone executor in CommonLibrary is behaviorally identical
to ParallelQuery's: the two demultiplexers produce the same handler-call
outcome on every input, and the two executors return the same
(result, response, blobs) value on every input. -/
theorem c10_refinement :
    (∀ (hd : HandlerCall → Bool) (query : List Cmd) (query_blobs : List Blob)
        (response : Response) (response_blobs : List Blob) (cpq bpq : Nat) (ci : Option Nat),
      CommonLibrary.map_response_to_handler hd query query_blobs response response_blobs
        cpq bpq ci
        = map_response_to_handler hd query query_blobs response response_blobs cpq bpq ci) ∧
    (∀ (q : List Cmd) (blobs : List Blob) (db : QueryOracle) (ss : List Int)
        (rh : Option (HandlerCall → Bool)) (cpq bpq : Nat) (st : Bool) (ci : Option Nat),
      CommonLibrary.execute_query q blobs db ss rh cpq bpq st ci
        = execute_batch q blobs db ss rh cpq bpq st ci) := by
  have hmap : ∀ (hd : HandlerCall → Bool) (query : List Cmd) (query_blobs : List Blob)
      (response : Response) (response_blobs : List Blob) (cpq bpq : Nat) (ci : Option Nat),
      CommonLibrary.map_response_to_handler hd query query_blobs response response_blobs
        cpq bpq ci
        = map_response_to_handler hd query query_blobs response response_blobs cpq bpq ci := by
    intro hd query query_blobs response response_blobs cpq bpq ci
    simp only [CommonLibrary.map_response_to_handler, map_response_to_handler,
      CL_demuxFrom_eq]
  refine ⟨hmap, ?_⟩
  intro q blobs db ss rh cpq bpq st ci
  simp only [CommonLibrary.execute_query, execute_batch, hmap, CL_responseStatuses_eq]

/-! ## Ref-renumbering lemmas -/

theorem lookupRef_ok (u : List (Nat × Nat)) (w p : Nat) (h : lookupRef u w = .ok p) :
    u.lookup w = some p := by
  simp only [lookupRef] at h
  cases hl : u.lookup w with
  | none => rw [hl] at h; exact Except.noConfusion h
  | some p2 => rw [hl] at h; cases h; rfl

theorem applyRef0_ok (u : List (Nat × Nat)) (i : Nat) (v v1 : CmdValues)
    (u1 : List (Nat × Nat)) (h : applyRef0 u i v = .ok (v1, u1)) :
    (v.ref0 = none ∧ v1 = v ∧ u1 = u) ∨
    (∃ w, v.ref0 = some w ∧ i + 1 < 100000 ∧
      v1 = { v with ref0 := some (i + 1) } ∧ u1 = (w, i + 1) :: u) := by
  cases hf : v.ref0 with
  | none =>
    simp only [applyRef0, hf] at h
    cases h
    exact Or.inl ⟨rfl, rfl, rfl⟩
  | some w =>
    simp only [applyRef0, hf] at h
    by_cases hb : i + 1 < 100000
    · rw [if_pos hb] at h
      cases h
      exact Or.inr ⟨w, rfl, hb, rfl, rfl⟩
    · rw [if_neg hb] at h
      exact Except.noConfusion h

theorem applyImage_ok (u : List (Nat × Nat)) (v v2 : CmdValues)
    (h : applyImage u v = .ok v2) :
    ∃ x, resolveOpt (fun w => u.lookup w) v.image_ref = some x ∧
      v2 = { v with image_ref := x } := by
  cases hf : v.image_ref with
  | none =>
    simp only [applyImage, hf] at h
    cases h
    exact ⟨none, by simp [resolveOpt, hf], by rw [← hf]⟩
  | some w =>
    simp only [applyImage, hf] at h
    cases hl : lookupRef u w with
    | error e => rw [hl] at h; exact Except.noConfusion h
    | ok p =>
      rw [hl] at h
      simp only [Except.map, Except.ok.injEq] at h
      exact ⟨some p, by simp [resolveOpt, lookupRef_ok u w p hl], h.symm⟩

theorem applyVideo_ok (u : List (Nat × Nat)) (v v2 : CmdValues)
    (h : applyVideo u v = .ok v2) :
    ∃ x, resolveOpt (fun w => u.lookup w) v.video_ref = some x ∧
      v2 = { v with video_ref := x } := by
  cases hf : v.video_ref with
  | none =>
    simp only [applyVideo, hf] at h
    cases h
    exact ⟨none, by simp [resolveOpt, hf], by rw [← hf]⟩
  | some w =>
    simp only [applyVideo, hf] at h
    cases hl : lookupRef u w with
    | error e => rw [hl] at h; exact Except.noConfusion h
    | ok p =>
      rw [hl] at h
      simp only [Except.map, Except.ok.injEq] at h
      exact ⟨some p, by simp [resolveOpt, lookupRef_ok u w p hl], h.symm⟩

theorem applySrc_ok (u : List (Nat × Nat)) (v v2 : CmdValues)
    (h : applySrc u v = .ok v2) :
    ∃ x, resolveOpt (fun w => u.lookup w) v.src = some x ∧
      v2 = { v with src := x } := by
  cases hf : v.src with
  | none =>
    simp only [applySrc, hf] at h
    cases h
    exact ⟨none, by simp [resolveOpt, hf], by rw [← hf]⟩
  | some w =>
    simp only [applySrc, hf] at h
    cases hl : lookupRef u w with
    | error e => rw [hl] at h; exact Except.noConfusion h
    | ok p =>
      rw [hl] at h
      simp only [Except.map, Except.ok.injEq] at h
      exact ⟨some p, by simp [resolveOpt, lookupRef_ok u w p hl], h.symm⟩

theorem applyDst_ok (u : List (Nat × Nat)) (v v2 : CmdValues)
    (h : applyDst u v = .ok v2) :
    ∃ x, resolveOpt (fun w => u.lookup w) v.dst = some x ∧
      v2 = { v with dst := x } := by
  cases hf : v.dst with
  | none =>
    simp only [applyDst, hf] at h
    cases h
    exact ⟨none, by simp [resolveOpt, hf], by rw [← hf]⟩
  | some w =>
    simp only [applyDst, hf] at h
    cases hl : lookupRef u w with
    | error e => rw [hl] at h; exact Except.noConfusion h
    | ok p =>
      rw [hl] at h
      simp only [Except.map, Except.ok.injEq] at h
      exact ⟨some p, by simp [resolveOpt, lookupRef_ok u w p hl], h.symm⟩

theorem applyRefField_ok (u : List (Nat × Nat)) (v v2 : CmdValues)
    (h : applyRefField u v = .ok v2) :
    ∃ x, resolveOpt (fun w => u.lookup w) v.ref = some x ∧
      v2 = { v with ref := x } := by
  cases hf : v.ref with
  | none =>
    simp only [applyRefField, hf] at h
    cases h
    exact ⟨none, by simp [resolveOpt, hf], by rw [← hf]⟩
  | some w =>
    simp only [applyRefField, hf] at h
    cases hl : lookupRef u w with
    | error e => rw [hl] at h; exact Except.noConfusion h
    | ok p =>
      rw [hl] at h
      simp only [Except.map, Except.ok.injEq] at h
      exact ⟨some p, by simp [resolveOpt, lookupRef_ok u w p hl], h.symm⟩

theorem applyConnect_ok (u : List (Nat × Nat)) (v v2 : CmdValues)
    (h : applyConnect u v = .ok v2) :
    ∃ cc, resolveConnectOpt (fun w => u.lookup w) v.connect = some cc ∧
      v2 = { v with connect := cc } := by
  cases hf : v.connect with
  | none =>
    simp only [applyConnect, hf] at h
    cases h
    exact ⟨none, by simp [resolveConnectOpt, resolveICTOpt, resolveOptList, hf], by rw [← hf]⟩
  | some c =>
    obtain ⟨cref⟩ := c
    cases hcr : cref with
    | none =>
      subst hcr
      simp only [applyConnect, hf] at h
      cases h
      exact ⟨some ⟨none⟩, by simp [resolveConnectOpt, hf, resolveOpt], by rw [← hf]⟩
    | some w =>
      subst hcr
      simp only [applyConnect, hf] at h
      cases hl : lookupRef u w with
      | error e => rw [hl] at h; exact Except.noConfusion h
      | ok p =>
        rw [hl] at h
        simp only [Except.map, Except.ok.injEq] at h
        exact ⟨some ⟨some p⟩,
          by simp [resolveConnectOpt, resolveOpt, lookupRef_ok u w p hl], h.symm⟩

theorem rewriteRefList_ok (u : List (Nat × Nat)) (l : List (Option Nat)) :
    ∀ l2, rewriteRefList u l = .ok l2 →
      resolveListOpt (fun w => u.lookup w) l = some l2 := by
  induction l with
  | nil =>
    intro l2 h
    simp only [rewriteRefList] at h
    cases h
    rfl
  | cons x rest ih =>
    intro l2 h
    cases x with
    | none =>
      simp only [rewriteRefList] at h
      cases hr : rewriteRefList u rest with
      | error e => rw [hr] at h; exact Except.noConfusion h
      | ok r2 =>
        rw [hr] at h
        simp only [Except.map, Except.ok.injEq] at h
        subst h
        simp [resolveListOpt, ih r2 hr]
    | some w =>
      simp only [rewriteRefList, bind, Except.bind] at h
      cases hl : lookupRef u w with
      | error e => rw [hl] at h; exact Except.noConfusion h
      | ok p =>
        rw [hl] at h
        cases hr : rewriteRefList u rest with
        | error e => rw [hr] at h; exact Except.noConfusion h
        | ok r2 =>
          rw [hr] at h
          cases h
          simp [resolveListOpt, lookupRef_ok u w p hl, Option.bind, ih r2 hr]

theorem ictRef_ok (u : List (Nat × Nat)) (ict ict2 : ICT) (h : ictRef u ict = .ok ict2) :
    ∃ x, resolveOpt (fun w => u.lookup w) ict.ref = some x ∧ ict2 = { ict with ref := x } := by
  cases hf : ict.ref with
  | none =>
    simp only [ictRef, hf] at h
    cases h
    exact ⟨none, by simp [resolveOpt, hf], by rw [← hf]⟩
  | some w =>
    simp only [ictRef, hf] at h
    cases hl : lookupRef u w with
    | error e => rw [hl] at h; exact Except.noConfusion h
    | ok p =>
      rw [hl] at h
      simp only [Except.map, Except.ok.injEq] at h
      exact ⟨some p, by simp [resolveOpt, lookupRef_ok u w p hl], h.symm⟩

theorem ictAny_ok (u : List (Nat × Nat)) (ict ict2 : ICT) (h : ictAny u ict = .ok ict2) :
    ∃ a, resolveOptList (fun w => u.lookup w) ict.any = some a ∧
      ict2 = { ict with any := a } := by
  cases hf : ict.any with
  | none =>
    simp only [ictAny, hf] at h
    cases h
    exact ⟨none, by simp [resolveConnectOpt, resolveICTOpt, resolveOptList, hf], by rw [← hf]⟩
  | some l =>
    simp only [ictAny, hf] at h
    cases hr : rewriteRefList u l with
    | error e => rw [hr] at h; exact Except.noConfusion h
    | ok l2 =>
      rw [hr] at h
      simp only [Except.map, Except.ok.injEq] at h
      exact ⟨some l2, by simp [resolveOptList, rewriteRefList_ok u l l2 hr], h.symm⟩

theorem ictAll_ok (u : List (Nat × Nat)) (ict ict2 : ICT) (h : ictAll u ict = .ok ict2) :
    ∃ a, resolveOptList (fun w => u.lookup w) ict.all = some a ∧
      ict2 = { ict with all := a } := by
  cases hf : ict.all with
  | none =>
    simp only [ictAll, hf] at h
    cases h
    exact ⟨none, by simp [resolveConnectOpt, resolveICTOpt, resolveOptList, hf], by rw [← hf]⟩
  | some l =>
    simp only [ictAll, hf] at h
    cases hr : rewriteRefList u l with
    | error e => rw [hr] at h; exact Except.noConfusion h
    | ok l2 =>
      rw [hr] at h
      simp only [Except.map, Except.ok.injEq] at h
      exact ⟨some l2, by simp [resolveOptList, rewriteRefList_ok u l l2 hr], h.symm⟩

theorem rewriteICT_ok (u : List (Nat × Nat)) (ict ict3 : ICT)
    (h : rewriteICT u ict = .ok ict3) :
    resolveICTSpec (fun w => u.lookup w) ict = some ict3 := by
  simp only [rewriteICT, bind, Except.bind] at h
  cases h1 : ictRef u ict with
  | error e => rw [h1] at h; exact Except.noConfusion h
  | ok ict1 =>
    rw [h1] at h
    dsimp only at h
    cases h2 : ictAny u ict1 with
    | error e => rw [h2] at h; exact Except.noConfusion h
    | ok ict2 =>
      rw [h2] at h
      dsimp only at h
      obtain ⟨x, hx, hict1⟩ := ictRef_ok u ict ict1 h1
      obtain ⟨a, ha, hict2⟩ := ictAny_ok u ict1 ict2 h2
      obtain ⟨al, hal, hict3⟩ := ictAll_ok u ict2 ict3 h
      subst hict1
      subst hict2
      subst hict3
      simp only at ha hal
      simp only [resolveICTSpec, bind, hx, Option.some_bind, ha, hal]

theorem applyICT_ok (u : List (Nat × Nat)) (v v2 : CmdValues)
    (h : applyICT u v = .ok v2) :
    ∃ ic, resolveICTOpt (fun w => u.lookup w) v.is_connected_to = some ic ∧
      v2 = { v with is_connected_to := ic } := by
  cases hf : v.is_connected_to with
  | none =>
    simp only [applyICT, hf] at h
    cases h
    exact ⟨none, by simp [resolveConnectOpt, resolveICTOpt, resolveOptList, hf], by rw [← hf]⟩
  | some ict =>
    simp only [applyICT, hf] at h
    cases hr : rewriteICT u ict with
    | error e => rw [hr] at h; exact Except.noConfusion h
    | ok ict2 =>
      rw [hr] at h
      simp only [Except.map, Except.ok.injEq] at h
      exact ⟨some ict2, by simp [resolveICTOpt, rewriteICT_ok u ict ict2 hr], h.symm⟩

theorem updatePointerFields_ok (u' : List (Nat × Nat)) (v1 v8 : CmdValues)
    (h : updatePointerFields u' v1 = .ok v8) :
    ∃ img vid ic cc sr ds rf,
      resolveOpt (fun w => u'.lookup w) v1.image_ref = some img ∧
      resolveOpt (fun w => u'.lookup w) v1.video_ref = some vid ∧
      resolveICTOpt (fun w => u'.lookup w) v1.is_connected_to = some ic ∧
      resolveConnectOpt (fun w => u'.lookup w) v1.connect = some cc ∧
      resolveOpt (fun w => u'.lookup w) v1.src = some sr ∧
      resolveOpt (fun w => u'.lookup w) v1.dst = some ds ∧
      resolveOpt (fun w => u'.lookup w) v1.ref = some rf ∧
      v8 = { v1 with
        image_ref := img
        video_ref := vid
        is_connected_to := ic
        connect := cc
        src := sr
        dst := ds
        ref := rf } := by
  simp only [updatePointerFields, bind, Except.bind] at h
  cases h1 : applyImage u' v1 with
  | error e => rw [h1] at h; exact Except.noConfusion h
  | ok v2 =>
    rw [h1] at h
    dsimp only at h
    cases h2 : applyVideo u' v2 with
    | error e => rw [h2] at h; exact Except.noConfusion h
    | ok v3 =>
      rw [h2] at h
      dsimp only at h
      cases h3 : applyICT u' v3 with
      | error e => rw [h3] at h; exact Except.noConfusion h
      | ok v4 =>
        rw [h3] at h
        dsimp only at h
        cases h4 : applyConnect u' v4 with
        | error e => rw [h4] at h; exact Except.noConfusion h
        | ok v5 =>
          rw [h4] at h
          dsimp only at h
          cases h5 : applySrc u' v5 with
          | error e => rw [h5] at h; exact Except.noConfusion h
          | ok v6 =>
            rw [h5] at h
            dsimp only at h
            cases h6 : applyDst u' v6 with
            | error e => rw [h6] at h; exact Except.noConfusion h
            | ok v7 =>
              rw [h6] at h
              dsimp only at h
              obtain ⟨img, himg, hv2⟩ := applyImage_ok u' v1 v2 h1
              obtain ⟨vid, hvid, hv3⟩ := applyVideo_ok u' v2 v3 h2
              obtain ⟨ic, hic, hv4⟩ := applyICT_ok u' v3 v4 h3
              obtain ⟨cc, hcc, hv5⟩ := applyConnect_ok u' v4 v5 h4
              obtain ⟨sr, hsr, hv6⟩ := applySrc_ok u' v5 v6 h5
              obtain ⟨ds, hds, hv7⟩ := applyDst_ok u' v6 v7 h6
              obtain ⟨rf, hrf, hv8⟩ := applyRefField_ok u' v7 v8 h
              subst hv2
              subst hv3
              subst hv4
              subst hv5
              subst hv6
              subst hv7
              subst hv8
              dsimp only at hvid hic hcc hsr hds hrf
              exact ⟨img, vid, ic, cc, sr, ds, rf, himg, hvid, hic, hcc, hsr, hds, hrf, rfl⟩

theorem updateCmdValues_ok (u : List (Nat × Nat)) (i : Nat) (v v8 : CmdValues)
    (u1 : List (Nat × Nat)) (h : updateCmdValues u i v = .ok (v8, u1)) :
    u1 = (match v.ref0 with | none => u | some w => (w, i + 1) :: u) ∧
    resolveValues (fun w => u1.lookup w) (i + 1) v = some v8 := by
  simp only [updateCmdValues, bind, Except.bind] at h
  cases h0 : applyRef0 u i v with
  | error e => rw [h0] at h; exact Except.noConfusion h
  | ok p =>
    obtain ⟨v1, u1'⟩ := p
    rw [h0] at h
    dsimp only at h
    cases hpf : updatePointerFields u1' v1 with
    | error e => rw [hpf] at h; exact Except.noConfusion h
    | ok v8' =>
      rw [hpf] at h
      dsimp only at h
      simp only [Except.ok.injEq, Prod.mk.injEq] at h
      obtain ⟨hv, hu⟩ := h
      subst hv
      subst hu
      obtain ⟨img, vid, ic, cc, sr, ds, rf, himg, hvid, hic, hcc, hsr, hds, hrf, hrec⟩ :=
        updatePointerFields_ok u1' v1 v8' hpf
      rcases applyRef0_ok u i v v1 u1' h0 with ⟨hr0, hv1, hu1⟩ | ⟨w, hr0, hb, hv1, hu1⟩
      · subst hv1
        subst hu1
        refine ⟨by rw [hr0], ?_⟩
        simp only [resolveValues, bind, himg, Option.some_bind, hvid, hic, hcc, hsr, hds, hrf]
        rw [hrec, hr0]
        rfl
      · subst hv1
        subst hu1
        dsimp only at himg hvid hic hcc hsr hds hrf
        refine ⟨by rw [hr0], ?_⟩
        simp only [resolveValues, bind, himg, Option.some_bind, hvid, hic, hcc, hsr, hds, hrf]
        rw [hrec, hr0]
        rfl

theorem resolveOpt_congr (f g : Nat → Option Nat) (hfg : ∀ w, f w = g w) :
    ∀ o, resolveOpt f o = resolveOpt g o := by
  intro o
  cases o <;> simp [resolveOpt, hfg]

theorem resolveListOpt_congr (f g : Nat → Option Nat) (hfg : ∀ w, f w = g w) :
    ∀ l, resolveListOpt f l = resolveListOpt g l := by
  intro l
  induction l with
  | nil => rfl
  | cons x rest ih => cases x <;> simp [resolveListOpt, hfg, ih]

theorem resolveOptList_congr (f g : Nat → Option Nat) (hfg : ∀ w, f w = g w) :
    ∀ o, resolveOptList f o = resolveOptList g o := by
  intro o
  cases o <;> simp [resolveOptList, resolveListOpt_congr f g hfg]

theorem resolveICTSpec_congr (f g : Nat → Option Nat) (hfg : ∀ w, f w = g w) (ict : ICT) :
    resolveICTSpec f ict = resolveICTSpec g ict := by
  simp [resolveICTSpec, resolveOpt_congr f g hfg, resolveOptList_congr f g hfg]

theorem resolveICTOpt_congr (f g : Nat → Option Nat) (hfg : ∀ w, f w = g w) :
    ∀ o, resolveICTOpt f o = resolveICTOpt g o := by
  intro o
  cases o <;> simp [resolveICTOpt, resolveICTSpec_congr f g hfg]

theorem resolveConnectOpt_congr (f g : Nat → Option Nat) (hfg : ∀ w, f w = g w) :
    ∀ o, resolveConnectOpt f o = resolveConnectOpt g o := by
  intro o
  cases o <;> simp [resolveConnectOpt, resolveOpt_congr f g hfg]

theorem resolveValues_congr (f g : Nat → Option Nat) (hfg : ∀ w, f w = g w) (pos : Nat)
    (v : CmdValues) : resolveValues f pos v = resolveValues g pos v := by
  simp [resolveValues, resolveOpt_congr f g hfg, resolveICTOpt_congr f g hfg,
    resolveConnectOpt_congr f g hfg]

theorem resolveCmd_congr (f g : Nat → Option Nat) (hfg : ∀ w, f w = g w) (pos : Nat) :
    ∀ c, resolveCmd f pos c = resolveCmd g pos c := by
  intro c
  cases c with
  | sub cs => rfl
  | dict entries =>
    cases entries with
    | nil => rfl
    | cons kv more =>
      obtain ⟨k, v⟩ := kv
      simp [resolveCmd, resolveValues_congr f g hfg]

theorem lastDefBefore_cons (c : Cmd) (rest : List Cmd) (w : Nat) :
    ∀ k, lastDefBefore (c :: rest) w (k + 1)
      = (match lastDefBefore rest w k with
         | some t => some (t + 1)
         | none => if definesVal c = some w then some 0 else none) := by
  intro k
  induction k with
  | zero =>
    simp only [lastDefBefore, List.getD_cons_zero]
  | succ k ih =>
    have hunfold : lastDefBefore (c :: rest) w (k + 1 + 1)
        = (if definesVal (rest.getD k (Cmd.dict [])) = some w then some (k + 1)
           else lastDefBefore (c :: rest) w (k + 1)) := by
      simp only [lastDefBefore, List.getD_cons_succ]
    rw [hunfold, ih]
    by_cases hdef : definesVal (rest.getD k (Cmd.dict [])) = some w
    · rw [if_pos hdef]
      have h2 : lastDefBefore rest w (k + 1) = some k := by
        simp only [lastDefBefore, hdef, if_pos]
      rw [h2]
    · rw [if_neg hdef]
      have h2 : lastDefBefore rest w (k + 1) = lastDefBefore rest w k := by
        simp only [lastDefBefore, hdef, if_neg, not_false_eq_true]
      rw [h2]

theorem lastDefBefore_lt (cmds : List Cmd) (w : Nat) :
    ∀ k t, lastDefBefore cmds w k = some t →
      t < k ∧ definesVal (cmds.getD t (Cmd.dict [])) = some w := by
  intro k
  induction k with
  | zero => intro t h; exact Option.noConfusion h
  | succ k ih =>
    intro t h
    simp only [lastDefBefore] at h
    by_cases hdef : definesVal (cmds.getD k (Cmd.dict [])) = some w
    · rw [if_pos hdef] at h
      cases h
      exact ⟨Nat.lt_succ_self k, hdef⟩
    · rw [if_neg hdef] at h
      obtain ⟨h1, h2⟩ := ih t h
      exact ⟨Nat.lt_succ_of_lt h1, h2⟩

theorem goLook_zero (updates : List (Nat × Nat)) (i : Nat) (c : Cmd) (rest : List Cmd)
    (w : Nat) :
    goLook updates i (c :: rest) 0 w
      = (match definesVal c with
         | none => updates
         | some w0 => (w0, i + 1) :: updates).lookup w := by
  simp only [goLook, lastDefBefore, List.getD_cons_zero]
  cases hdef : definesVal c with
  | none => simp
  | some w0 =>
    by_cases hw : w0 = w
    · subst hw
      simp [List.lookup]
    · rw [if_neg (by simpa using hw)]
      have hbeq : (w == w0) = false := by
        simp only [beq_eq_false_iff_ne, ne_eq]
        exact fun heq => hw heq.symm
      simp [List.lookup, hbeq]

theorem goLook_cons (updates : List (Nat × Nat)) (i : Nat) (c : Cmd) (rest : List Cmd)
    (j w : Nat) :
    goLook updates i (c :: rest) (j + 1) w
      = goLook (match definesVal c with
         | none => updates
         | some w0 => (w0, i + 1) :: updates) (i + 1) rest j w := by
  unfold goLook
  rw [lastDefBefore_cons]
  cases hl : lastDefBefore rest w (j + 1) with
  | some t =>
    dsimp only
    congr 1
    omega
  | none =>
    dsimp only
    cases hdef : definesVal c with
    | none => simp
    | some w0 =>
      by_cases hw : w0 = w
      · subst hw
        simp [List.lookup]
      · rw [if_neg (by simpa using hw)]
        have hbeq : (w == w0) = false := by
          simp only [beq_eq_false_iff_ne, ne_eq]
          exact fun heq => hw heq.symm
        simp [List.lookup, hbeq]

/-- Structure of a successful renumbering run: every command of the input
is a nonempty dict, the output is index-aligned, and the `j`-th output
command is the `j`-th input command with its "_ref" overwritten by the
1-based absolute position and every pointer field resolved through the
declarative most-recent-definition lookup. -/
theorem update_refs_go_resolves :
    ∀ (cmds : List Cmd) (updates : List (Nat × Nat)) (i : Nat) (out : List Cmd),
      (∀ c ∈ cmds, isNonemptyDict c = true) →
      update_refs_go updates i cmds = .ok out →
      out.length = cmds.length ∧
      ∀ j, j < cmds.length →
        resolveCmd (goLook updates i cmds j) (i + j + 1) (cmds.getD j (Cmd.dict []))
          = some (out.getD j (Cmd.dict [])) := by
  intro cmds
  induction cmds with
  | nil =>
    intro updates i out hne h
    simp only [update_refs_go] at h
    cases h
    exact ⟨rfl, fun j hj => absurd hj (by simp)⟩
  | cons c rest ih =>
    intro updates i out hne h
    have hc : isNonemptyDict c = true := hne c (List.mem_cons_self c rest)
    cases c with
    | sub cs => exact absurd hc (by simp [isNonemptyDict])
    | dict entries =>
      cases entries with
      | nil => exact absurd hc (by simp [isNonemptyDict])
      | cons kv more =>
        obtain ⟨k0, v⟩ := kv
        simp only [update_refs_go, bind, Except.bind] at h
        cases hu : updateCmdValues updates i v with
        | error e => rw [hu] at h; exact Except.noConfusion h
        | ok p =>
          obtain ⟨v2, u2⟩ := p
          rw [hu] at h
          dsimp only at h
          cases hrest : update_refs_go u2 (i + 1) rest with
          | error e => rw [hrest] at h; exact Except.noConfusion h
          | ok rest2 =>
            rw [hrest] at h
            dsimp only at h
            cases h
            obtain ⟨hu2, hres⟩ := updateCmdValues_ok updates i v v2 u2 hu
            obtain ⟨hlen, hgroups⟩ :=
              ih u2 (i + 1) rest2 (fun x hx => hne x (List.mem_cons_of_mem _ hx)) hrest
            refine ⟨by simpa using hlen, ?_⟩
            intro j hj
            cases j with
            | zero =>
              rw [List.getD_cons_zero, List.getD_cons_zero]
              have hlookeq : ∀ w, goLook updates i (Cmd.dict ((k0, v) :: more) :: rest) 0 w
                  = u2.lookup w := by
                intro w
                rw [goLook_zero]
                rw [hu2]
                rfl
              rw [resolveCmd_congr _ (fun w => u2.lookup w) hlookeq (i + 0 + 1)]
              simp only [resolveCmd, Nat.add_zero, hres]
              rfl
            | succ j =>
              rw [List.getD_cons_succ, List.getD_cons_succ]
              have hj2 : j < rest.length := by simpa using hj
              have hgl := hgroups j hj2
              have hlookeq : ∀ w, goLook updates i (Cmd.dict ((k0, v) :: more) :: rest) (j + 1) w
                  = goLook u2 (i + 1) rest j w := by
                intro w
                rw [goLook_cons]
                rw [hu2]
                rfl
              rw [resolveCmd_congr _ (goLook u2 (i + 1) rest j) hlookeq (i + (j + 1) + 1)]
              have hidx : i + (j + 1) + 1 = i + 1 + j + 1 := by omega
              rw [hidx]
              exact hgl

theorem isSingleKeyDict_nonempty (c : Cmd) (h : isSingleKeyDict c = true) :
    isNonemptyDict c = true := by
  cases c with
  | sub cs => exact absurd h (by simp [isSingleKeyDict])
  | dict entries =>
    cases entries with
    | nil => exact absurd h (by simp [isSingleKeyDict])
    | cons kv more => simp [isNonemptyDict]

theorem topLook_eq_goLook (cmds : List Cmd) (j w : Nat) :
    topLook cmds j w = goLook [] 0 cmds j w := by
  simp only [topLook, goLook]
  cases lastDefBefore cmds w (j + 1) with
  | none => rfl
  | some t =>
    simp [Nat.zero_add]

/-- C2: for records whose commands are all single-key dicts, `generate_batch`
returns the blobs concatenated in order and a command list of the same
length as the concatenated commands, in which the `j`-th command has its
"_ref" overwritten with its 1-based absolute position `j + 1` and every
pointer field rewritten to the absolute position recorded for the most
recent command (at or before `j`, a command's own "_ref" being remapped
before its pointer fields) that defined the same record-local ref value. -/
theorem c2_generate_batch (data : List (List Cmd × List Blob)) (q : List Cmd)
    (blobs : List Blob)
    (hsk : ∀ c ∈ (data.map Prod.fst).flatten, isSingleKeyDict c = true)
    (h : generate_batch data = .ok (q, blobs)) :
    blobs = (data.map Prod.snd).flatten ∧
    q.length = ((data.map Prod.fst).flatten).length ∧
    ∀ j, j < ((data.map Prod.fst).flatten).length →
      resolveCmd (topLook ((data.map Prod.fst).flatten) j) (j + 1)
        (((data.map Prod.fst).flatten).getD j (Cmd.dict []))
        = some (q.getD j (Cmd.dict [])) := by
  simp only [generate_batch, bind, Except.bind] at h
  cases hup : update_refs ((data.map Prod.fst).flatten) with
  | error e => rw [hup] at h; exact Except.noConfusion h
  | ok q2 =>
    rw [hup] at h
    dsimp only at h
    simp only [Except.ok.injEq, Prod.mk.injEq] at h
    obtain ⟨hq, hb⟩ := h
    subst hq
    obtain ⟨hlen, hres⟩ := update_refs_go_resolves ((data.map Prod.fst).flatten) [] 0 q2
      (fun c hc => isSingleKeyDict_nonempty c (hsk c hc)) hup
    refine ⟨hb.symm, hlen, ?_⟩
    intro j hj
    have hr := hres j hj
    rw [resolveCmd_congr (topLook ((data.map Prod.fst).flatten) j)
      (goLook [] 0 ((data.map Prod.fst).flatten) j)
      (topLook_eq_goLook ((data.map Prod.fst).flatten) j) (j + 1)]
    rw [show (0 : Nat) + j + 1 = j + 1 from by omega] at hr
    exact hr

/-- C2 witness: two one-command records with local refs 10 and 20 and a
cross-record `image_ref` pointer; refs become positions 1 and 2 and the
pointer resolves to 1. -/
theorem c2_generate_batch_witness :
    generate_batch c2Data = .ok (c2Q, [[7], [8]]) ∧
    resolveCmd (topLook c2Cmds 1) 2 (c2Cmds.getD 1 (Cmd.dict []))
      = some (c2Q.getD 1 (Cmd.dict [])) := by
  have hgen : generate_batch c2Data = .ok (c2Q, [[7], [8]]) := by rfl
  have h := c2_generate_batch c2Data c2Q [[7], [8]] (by decide) hgen
  refine ⟨hgen, ?_⟩
  have h2 := h.2.2 1 (by decide)
  exact h2

/-! ## Error classification of the renumbering loop -/

theorem lookupRef_error (u : List (Nat × Nat)) (w : Nat) (e : RefError)
    (h : lookupRef u w = .error e) : e = .keyError w := by
  simp only [lookupRef] at h
  cases hl : u.lookup w with
  | none => rw [hl] at h; cases h; rfl
  | some p => rw [hl] at h; exact Except.noConfusion h

theorem applyImage_error (u : List (Nat × Nat)) (v : CmdValues) (e : RefError)
    (h : applyImage u v = .error e) : ∃ w, e = .keyError w := by
  cases hf : v.image_ref with
  | none => simp only [applyImage, hf] at h; exact Except.noConfusion h
  | some w =>
    simp only [applyImage, hf] at h
    cases hl : lookupRef u w with
    | error e2 =>
      rw [hl] at h
      simp only [Except.map] at h
      cases h
      exact ⟨w, lookupRef_error u w e hl⟩
    | ok p =>
      rw [hl] at h
      simp only [Except.map] at h
      exact Except.noConfusion h

theorem applyVideo_error (u : List (Nat × Nat)) (v : CmdValues) (e : RefError)
    (h : applyVideo u v = .error e) : ∃ w, e = .keyError w := by
  cases hf : v.video_ref with
  | none => simp only [applyVideo, hf] at h; exact Except.noConfusion h
  | some w =>
    simp only [applyVideo, hf] at h
    cases hl : lookupRef u w with
    | error e2 =>
      rw [hl] at h
      simp only [Except.map] at h
      cases h
      exact ⟨w, lookupRef_error u w e hl⟩
    | ok p =>
      rw [hl] at h
      simp only [Except.map] at h
      exact Except.noConfusion h

theorem applySrc_error (u : List (Nat × Nat)) (v : CmdValues) (e : RefError)
    (h : applySrc u v = .error e) : ∃ w, e = .keyError w := by
  cases hf : v.src with
  | none => simp only [applySrc, hf] at h; exact Except.noConfusion h
  | some w =>
    simp only [applySrc, hf] at h
    cases hl : lookupRef u w with
    | error e2 =>
      rw [hl] at h
      simp only [Except.map] at h
      cases h
      exact ⟨w, lookupRef_error u w e hl⟩
    | ok p =>
      rw [hl] at h
      simp only [Except.map] at h
      exact Except.noConfusion h

theorem applyDst_error (u : List (Nat × Nat)) (v : CmdValues) (e : RefError)
    (h : applyDst u v = .error e) : ∃ w, e = .keyError w := by
  cases hf : v.dst with
  | none => simp only [applyDst, hf] at h; exact Except.noConfusion h
  | some w =>
    simp only [applyDst, hf] at h
    cases hl : lookupRef u w with
    | error e2 =>
      rw [hl] at h
      simp only [Except.map] at h
      cases h
      exact ⟨w, lookupRef_error u w e hl⟩
    | ok p =>
      rw [hl] at h
      simp only [Except.map] at h
      exact Except.noConfusion h

theorem applyRefField_error (u : List (Nat × Nat)) (v : CmdValues) (e : RefError)
    (h : applyRefField u v = .error e) : ∃ w, e = .keyError w := by
  cases hf : v.ref with
  | none => simp only [applyRefField, hf] at h; exact Except.noConfusion h
  | some w =>
    simp only [applyRefField, hf] at h
    cases hl : lookupRef u w with
    | error e2 =>
      rw [hl] at h
      simp only [Except.map] at h
      cases h
      exact ⟨w, lookupRef_error u w e hl⟩
    | ok p =>
      rw [hl] at h
      simp only [Except.map] at h
      exact Except.noConfusion h

theorem applyConnect_error (u : List (Nat × Nat)) (v : CmdValues) (e : RefError)
    (h : applyConnect u v = .error e) : ∃ w, e = .keyError w := by
  cases hf : v.connect with
  | none => simp only [applyConnect, hf] at h; exact Except.noConfusion h
  | some c =>
    cases hcr : c.ref with
    | none => simp only [applyConnect, hf, hcr] at h; exact Except.noConfusion h
    | some w =>
      simp only [applyConnect, hf, hcr] at h
      cases hl : lookupRef u w with
      | error e2 =>
        rw [hl] at h
        simp only [Except.map] at h
        cases h
        exact ⟨w, lookupRef_error u w e hl⟩
      | ok p =>
        rw [hl] at h
        simp only [Except.map] at h
        exact Except.noConfusion h

theorem rewriteRefList_error (u : List (Nat × Nat)) (l : List (Option Nat)) :
    ∀ e, rewriteRefList u l = .error e → ∃ w, e = .keyError w := by
  induction l with
  | nil => intro e h; exact Except.noConfusion h
  | cons x rest ih =>
    intro e h
    cases x with
    | none =>
      simp only [rewriteRefList] at h
      cases hr : rewriteRefList u rest with
      | error e2 =>
        rw [hr] at h
        simp only [Except.map] at h
        cases h
        exact ih e hr
      | ok l2 =>
        rw [hr] at h
        simp only [Except.map] at h
        exact Except.noConfusion h
    | some w =>
      simp only [rewriteRefList, bind, Except.bind] at h
      cases hl : lookupRef u w with
      | error e2 =>
        rw [hl] at h
        cases h
        exact ⟨w, lookupRef_error u w e hl⟩
      | ok p =>
        rw [hl] at h
        dsimp only at h
        cases hr : rewriteRefList u rest with
        | error e2 =>
          rw [hr] at h
          cases h
          exact ih e hr
        | ok l2 =>
          rw [hr] at h
          exact Except.noConfusion h

theorem ictRef_error (u : List (Nat × Nat)) (ict : ICT) (e : RefError)
    (h : ictRef u ict = .error e) : ∃ w, e = .keyError w := by
  cases hf : ict.ref with
  | none => simp only [ictRef, hf] at h; exact Except.noConfusion h
  | some w =>
    simp only [ictRef, hf] at h
    cases hl : lookupRef u w with
    | error e2 =>
      rw [hl] at h
      simp only [Except.map] at h
      cases h
      exact ⟨w, lookupRef_error u w e hl⟩
    | ok p =>
      rw [hl] at h
      simp only [Except.map] at h
      exact Except.noConfusion h

theorem ictAny_error (u : List (Nat × Nat)) (ict : ICT) (e : RefError)
    (h : ictAny u ict = .error e) : ∃ w, e = .keyError w := by
  cases hf : ict.any with
  | none => simp only [ictAny, hf] at h; exact Except.noConfusion h
  | some l =>
    simp only [ictAny, hf] at h
    cases hr : rewriteRefList u l with
    | error e2 =>
      rw [hr] at h
      simp only [Except.map] at h
      cases h
      exact rewriteRefList_error u l e hr
    | ok l2 =>
      rw [hr] at h
      simp only [Except.map] at h
      exact Except.noConfusion h

theorem ictAll_error (u : List (Nat × Nat)) (ict : ICT) (e : RefError)
    (h : ictAll u ict = .error e) : ∃ w, e = .keyError w := by
  cases hf : ict.all with
  | none => simp only [ictAll, hf] at h; exact Except.noConfusion h
  | some l =>
    simp only [ictAll, hf] at h
    cases hr : rewriteRefList u l with
    | error e2 =>
      rw [hr] at h
      simp only [Except.map] at h
      cases h
      exact rewriteRefList_error u l e hr
    | ok l2 =>
      rw [hr] at h
      simp only [Except.map] at h
      exact Except.noConfusion h

theorem rewriteICT_error (u : List (Nat × Nat)) (ict : ICT) (e : RefError)
    (h : rewriteICT u ict = .error e) : ∃ w, e = .keyError w := by
  simp only [rewriteICT, bind, Except.bind] at h
  cases h1 : ictRef u ict with
  | error e2 =>
    rw [h1] at h
    cases h
    exact ictRef_error u ict e h1
  | ok ict1 =>
    rw [h1] at h
    dsimp only at h
    cases h2 : ictAny u ict1 with
    | error e2 =>
      rw [h2] at h
      cases h
      exact ictAny_error u ict1 e h2
    | ok ict2 =>
      rw [h2] at h
      dsimp only at h
      exact ictAll_error u ict2 e h

theorem applyICT_error (u : List (Nat × Nat)) (v : CmdValues) (e : RefError)
    (h : applyICT u v = .error e) : ∃ w, e = .keyError w := by
  cases hf : v.is_connected_to with
  | none => simp only [applyICT, hf] at h; exact Except.noConfusion h
  | some ict =>
    simp only [applyICT, hf] at h
    cases hr : rewriteICT u ict with
    | error e2 =>
      rw [hr] at h
      simp only [Except.map] at h
      cases h
      exact rewriteICT_error u ict e hr
    | ok ict2 =>
      rw [hr] at h
      simp only [Except.map] at h
      exact Except.noConfusion h

theorem updatePointerFields_error (u : List (Nat × Nat)) (v1 : CmdValues) (e : RefError)
    (h : updatePointerFields u v1 = .error e) : ∃ w, e = .keyError w := by
  simp only [updatePointerFields, bind, Except.bind] at h
  cases h1 : applyImage u v1 with
  | error e2 => rw [h1] at h; cases h; exact applyImage_error u v1 e h1
  | ok v2 =>
    rw [h1] at h
    dsimp only at h
    cases h2 : applyVideo u v2 with
    | error e2 => rw [h2] at h; cases h; exact applyVideo_error u v2 e h2
    | ok v3 =>
      rw [h2] at h
      dsimp only at h
      cases h3 : applyICT u v3 with
      | error e2 => rw [h3] at h; cases h; exact applyICT_error u v3 e h3
      | ok v4 =>
        rw [h3] at h
        dsimp only at h
        cases h4 : applyConnect u v4 with
        | error e2 => rw [h4] at h; cases h; exact applyConnect_error u v4 e h4
        | ok v5 =>
          rw [h4] at h
          dsimp only at h
          cases h5 : applySrc u v5 with
          | error e2 => rw [h5] at h; cases h; exact applySrc_error u v5 e h5
          | ok v6 =>
            rw [h5] at h
            dsimp only at h
            cases h6 : applyDst u v6 with
            | error e2 => rw [h6] at h; cases h; exact applyDst_error u v6 e h6
            | ok v7 =>
              rw [h6] at h
              dsimp only at h
              exact applyRefField_error u v7 e h

theorem applyRef0_noerror (u : List (Nat × Nat)) (i : Nat) (v : CmdValues)
    (hb : i + 1 < 100000) : ∃ r, applyRef0 u i v = .ok r := by
  cases hf : v.ref0 with
  | none => exact ⟨(v, u), by simp [applyRef0, hf]⟩
  | some w =>
    refine ⟨({ v with ref0 := some (i + 1) }, (w, i + 1) :: u), ?_⟩
    simp [applyRef0, hf, hb]

theorem updateCmdValues_error (u : List (Nat × Nat)) (i : Nat) (v : CmdValues)
    (e : RefError) (hb : i + 1 < 100000)
    (h : updateCmdValues u i v = .error e) : ∃ w, e = .keyError w := by
  simp only [updateCmdValues, bind, Except.bind] at h
  obtain ⟨⟨v1, u1⟩, h0⟩ := applyRef0_noerror u i v hb
  rw [h0] at h
  dsimp only at h
  cases hpf : updatePointerFields u1 v1 with
  | error e2 =>
    rw [hpf] at h
    cases h
    exact updatePointerFields_error u1 v1 e hpf
  | ok v8 =>
    rw [hpf] at h
    exact Except.noConfusion h

/-- In a batch whose processed range stays below position 100000, every
renumbering failure is either the empty-dict IndexError or a pointer
KeyError — the assertion never fires (C9's safe side). -/
theorem update_refs_go_error (cmds : List Cmd) :
    ∀ (updates : List (Nat × Nat)) (i : Nat) (e : RefError),
      i + cmds.length < 100000 →
      update_refs_go updates i cmds = .error e →
      e = .indexError ∨ ∃ w, e = .keyError w := by
  induction cmds with
  | nil =>
    intro updates i e hb h
    exact Except.noConfusion h
  | cons c rest ih =>
    intro updates i e hb h
    cases c with
    | sub cs =>
      simp only [update_refs_go] at h
      exact Except.noConfusion h
    | dict entries =>
      cases entries with
      | nil =>
        simp only [update_refs_go] at h
        cases h
        exact Or.inl rfl
      | cons kv more =>
        obtain ⟨k0, v⟩ := kv
        simp only [update_refs_go, bind, Except.bind] at h
        cases hu : updateCmdValues updates i v with
        | error e2 =>
          rw [hu] at h
          cases h
          exact Or.inr (updateCmdValues_error updates i v e (by simp at hb; omega) hu)
        | ok p =>
          obtain ⟨v2, u2⟩ := p
          rw [hu] at h
          dsimp only at h
          cases hrest : update_refs_go u2 (i + 1) rest with
          | error e2 =>
            rw [hrest] at h
            cases h
            exact ih u2 (i + 1) e (by simp at hb; omega) hrest
          | ok rest2 =>
            rw [hrest] at h
            exact Except.noConfusion h

/-- With only nonempty dict commands, every renumbering failure below the
position bound is a pointer KeyError (RefResolutionFailure). -/
theorem update_refs_go_error_key (cmds : List Cmd) :
    ∀ (updates : List (Nat × Nat)) (i : Nat) (e : RefError),
      (∀ c ∈ cmds, isNonemptyDict c = true) →
      i + cmds.length < 100000 →
      update_refs_go updates i cmds = .error e →
      ∃ w, e = .keyError w := by
  induction cmds with
  | nil =>
    intro updates i e hne hb h
    exact Except.noConfusion h
  | cons c rest ih =>
    intro updates i e hne hb h
    have hc : isNonemptyDict c = true := hne c (List.mem_cons_self c rest)
    cases c with
    | sub cs => exact absurd hc (by simp [isNonemptyDict])
    | dict entries =>
      cases entries with
      | nil => exact absurd hc (by simp [isNonemptyDict])
      | cons kv more =>
        obtain ⟨k0, v⟩ := kv
        simp only [update_refs_go, bind, Except.bind] at h
        cases hu : updateCmdValues updates i v with
        | error e2 =>
          rw [hu] at h
          cases h
          exact updateCmdValues_error updates i v e (by simp at hb; omega) hu
        | ok p =>
          obtain ⟨v2, u2⟩ := p
          rw [hu] at h
          dsimp only at h
          cases hrest : update_refs_go u2 (i + 1) rest with
          | error e2 =>
            rw [hrest] at h
            cases h
            exact ih u2 (i + 1) e (fun x hx => hne x (List.mem_cons_of_mem _ hx))
              (by simp at hb; omega) hrest
          | ok rest2 =>
            rw [hrest] at h
            exact Except.noConfusion h

/-! ## Resolved pointers have table entries -/

theorem resolveOpt_isSome (look : Nat → Option Nat) (w : Nat) (x : Option Nat)
    (h : resolveOpt look (some w) = some x) : (look w).isSome = true := by
  simp only [resolveOpt] at h
  cases hl : look w with
  | none => rw [hl] at h; simp at h
  | some p => simp

theorem resolveListOpt_isSome (look : Nat → Option Nat) (l : List (Option Nat)) :
    ∀ l2, resolveListOpt look l = some l2 →
      ∀ w, some w ∈ l → (look w).isSome = true := by
  induction l with
  | nil => intro l2 h w hw; simp at hw
  | cons x rest ih =>
    intro l2 h w hw
    cases x with
    | none =>
      simp only [resolveListOpt] at h
      cases hr : resolveListOpt look rest with
      | none => rw [hr] at h; simp at h
      | some r2 =>
        rcases List.mem_cons.mp hw with h1 | h1
        · exact Option.noConfusion h1
        · exact ih r2 hr w h1
    | some w0 =>
      simp only [resolveListOpt, bind] at h
      cases hl : look w0 with
      | none => rw [hl] at h; simp at h
      | some p =>
        rw [hl] at h
        simp only [Option.some_bind] at h
        cases hr : resolveListOpt look rest with
        | none => rw [hr] at h; simp at h
        | some r2 =>
          rcases List.mem_cons.mp hw with h1 | h1
          · cases h1; simp [hl]
          · exact ih r2 hr w h1

theorem resolveOptList_isSome (look : Nat → Option Nat) (o : Option (List (Option Nat)))
    (a : Option (List (Option Nat))) (h : resolveOptList look o = some a) :
    ∀ w, some w ∈ o.getD [] → (look w).isSome = true := by
  intro w hw
  cases o with
  | none => simp at hw
  | some l =>
    simp only [resolveOptList] at h
    cases hr : resolveListOpt look l with
    | none => rw [hr] at h; simp at h
    | some l2 => exact resolveListOpt_isSome look l l2 hr w (by simpa using hw)

theorem resolveICTSpec_isSome (look : Nat → Option Nat) (ict : ICT) (ict2 : ICT)
    (h : resolveICTSpec look ict = some ict2) :
    ∀ w, (some w = ict.ref ∨ some w ∈ ict.any.getD [] ∨ some w ∈ ict.all.getD []) →
      (look w).isSome = true := by
  intro w hw
  simp only [resolveICTSpec, bind] at h
  cases h1 : resolveOpt look ict.ref with
  | none => rw [h1] at h; simp at h
  | some r =>
    rw [h1] at h
    simp only [Option.some_bind] at h
    cases h2 : resolveOptList look ict.any with
    | none => rw [h2] at h; simp at h
    | some a =>
      rw [h2] at h
      simp only [Option.some_bind] at h
      cases h3 : resolveOptList look ict.all with
      | none => rw [h3] at h; simp at h
      | some al =>
        rcases hw with hw | hw | hw
        · rw [← hw] at h1
          exact resolveOpt_isSome look w r h1
        · exact resolveOptList_isSome look ict.any a h2 w hw
        · exact resolveOptList_isSome look ict.all al h3 w hw

theorem resolveValues_pointers_isSome (look : Nat → Option Nat) (pos : Nat)
    (v v2 : CmdValues) (h : resolveValues look pos v = some v2) :
    ∀ w, w ∈ pointerValues v → (look w).isSome = true := by
  intro w hw
  simp only [resolveValues, bind] at h
  cases h1 : resolveOpt look v.image_ref with
  | none => rw [h1] at h; simp at h
  | some img =>
  rw [h1] at h
  simp only [Option.some_bind] at h
  cases h2 : resolveOpt look v.video_ref with
  | none => rw [h2] at h; simp at h
  | some vid =>
  rw [h2] at h
  simp only [Option.some_bind] at h
  cases h3 : resolveICTOpt look v.is_connected_to with
  | none => rw [h3] at h; simp at h
  | some ic =>
  rw [h3] at h
  simp only [Option.some_bind] at h
  cases h4 : resolveConnectOpt look v.connect with
  | none => rw [h4] at h; simp at h
  | some cc =>
  rw [h4] at h
  simp only [Option.some_bind] at h
  cases h5 : resolveOpt look v.src with
  | none => rw [h5] at h; simp at h
  | some sr =>
  rw [h5] at h
  simp only [Option.some_bind] at h
  cases h6 : resolveOpt look v.dst with
  | none => rw [h6] at h; simp at h
  | some ds =>
  rw [h6] at h
  simp only [Option.some_bind] at h
  cases h7 : resolveOpt look v.ref with
  | none => rw [h7] at h; simp at h
  | some rf =>
  simp only [pointerValues, List.mem_append] at hw
  rcases hw with ((((((hw | hw) | hw) | hw) | hw) | hw) | hw)
  · have himg : v.image_ref = some w := by
      rwa [Option.mem_toList, Option.mem_def] at hw
    rw [himg] at h1
    exact resolveOpt_isSome look w img h1
  · have hvid : v.video_ref = some w := by
      rwa [Option.mem_toList, Option.mem_def] at hw
    rw [hvid] at h2
    exact resolveOpt_isSome look w vid h2
  · cases hict : v.is_connected_to with
    | none => rw [hict] at hw; simp at hw
    | some ict =>
      rw [hict] at hw h3
      simp only [resolveICTOpt] at h3
      cases hspec : resolveICTSpec look ict with
      | none => rw [hspec] at h3; simp at h3
      | some ict2 =>
        refine resolveICTSpec_isSome look ict ict2 hspec w ?_
        simp only [List.mem_append] at hw
        rcases hw with (hw | hw) | hw
        · exact Or.inl (by rw [Option.mem_toList, Option.mem_def] at hw; exact hw.symm)
        · exact Or.inr (Or.inl (by
            obtain ⟨a, ha, hid⟩ := List.mem_filterMap.mp hw
            cases a with
            | none => exact Option.noConfusion hid
            | some a0 => cases hid; exact ha))
        · exact Or.inr (Or.inr (by
            obtain ⟨a, ha, hid⟩ := List.mem_filterMap.mp hw
            cases a with
            | none => exact Option.noConfusion hid
            | some a0 => cases hid; exact ha))
  · cases hconn : v.connect with
    | none => rw [hconn] at hw; simp at hw
    | some c =>
      rw [hconn] at hw h4
      have hcr : c.ref = some w := by
        rw [Option.mem_toList, Option.mem_def] at hw
        exact hw
      simp only [resolveConnectOpt, hcr] at h4
      cases hro : resolveOpt look (some w) with
      | none => rw [hro] at h4; simp at h4
      | some x => exact resolveOpt_isSome look w x hro
  · have hsrc : v.src = some w := by
      rwa [Option.mem_toList, Option.mem_def] at hw
    rw [hsrc] at h5
    exact resolveOpt_isSome look w sr h5
  · have hdst : v.dst = some w := by
      rwa [Option.mem_toList, Option.mem_def] at hw
    rw [hdst] at h6
    exact resolveOpt_isSome look w ds h6
  · have href : v.ref = some w := by
      rwa [Option.mem_toList, Option.mem_def] at hw
    rw [href] at h7
    exact resolveOpt_isSome look w rf h7

theorem generate_batch_error (data : List (List Cmd × List Blob)) (e : RefError) :
    generate_batch data = .error e ↔
      update_refs ((data.map Prod.fst).flatten) = .error e := by
  simp only [generate_batch, bind, Except.bind]
  cases update_refs ((data.map Prod.fst).flatten) <;> simp

/-- C5 counterexample: as stated the claim is false.  A command may point at
a ref value defined only by its own "_ref" (remapped first), and a batch
whose renumbering `break`s at a pre-batched list command never examines the
later undefined pointer; both assemble successfully. -/
theorem c5_counterexample :
    (generate_batch c5SelfData
      = .ok ([Cmd.dict [("AddImage", ({ ref0 := some 1, src := some 1 } : CmdValues))]], [])) ∧
    (generate_batch c5SubData
      = .ok ([Cmd.sub [], Cmd.dict [("AddEntity", ({ src := some 9 } : CmdValues))]], [])) :=
  ⟨by rfl, by rfl⟩

/-- C5 (amended): in a batch of fewer than 100000 commands that are all
nonempty dicts, if some command has a pointer field whose value was defined
neither by an earlier command nor by that command's own "_ref", then
`generate_batch` raises RefResolutionFailure (a KeyError); `do_batch` then
aborts before recording any WorkerStats, and the worker catches the
exception, adds one to the error counter and proceeds to its next batch
(so the failed batch contributes nothing to the counters). -/
theorem c5_ref_resolution_failure :
    (∀ (data : List (List Cmd × List Blob)),
      (∀ c ∈ (data.map Prod.fst).flatten, isNonemptyDict c = true) →
      ((data.map Prod.fst).flatten).length < 100000 →
      (∃ j, j < ((data.map Prod.fst).flatten).length ∧
        ∃ w, w ∈ cmdPointerValues (((data.map Prod.fst).flatten).getD j (Cmd.dict [])) ∧
          ∀ t, t ≤ j →
            definesVal (((data.map Prod.fst).flatten).getD t (Cmd.dict [])) ≠ some w) →
      ∃ w2, generate_batch data = .error (.keyError w2)) ∧
    (∀ (db : QueryOracle) (dr : Bool) (rh : Option (HandlerCall → Bool)) (st : Bool)
        (cpq bpq : Nat) (ss : List Int) (bs : Nat) (data : List (List Cmd × List Blob))
        (e : RefError),
      generate_batch data = .error e →
      do_batch db dr rh st cpq bpq ss bs data = .error (.refError e)) ∧
    (worker okOracle c5Gen false none false 1 0 [0, 2] 1 0 2 = ⟨1, [5], [⟨1, 1, 0⟩]⟩ ∧
      get_succeeded_queries (worker okOracle c5Gen false none false 1 0 [0, 2] 1 0 2) = 1 ∧
      get_succeeded_commands (worker okOracle c5Gen false none false 1 0 [0, 2] 1 0 2) = 1) := by
  refine ⟨?_, ?_, by rfl, by rfl, by rfl⟩
  · intro data hne hlen ⟨j, hj, w, hw, hundef⟩
    cases hup : update_refs ((data.map Prod.fst).flatten) with
    | ok out =>
      exfalso
      obtain ⟨hlen2, hres⟩ := update_refs_go_resolves ((data.map Prod.fst).flatten) [] 0 out
        hne hup
      have hr := hres j hj
      have hmem : ((data.map Prod.fst).flatten).getD j (Cmd.dict [])
          ∈ (data.map Prod.fst).flatten := by
        rw [List.getD_eq_getElem ((data.map Prod.fst).flatten) (Cmd.dict []) hj]
        exact List.getElem_mem hj
      have hcne := hne _ hmem
      cases hcmd : ((data.map Prod.fst).flatten).getD j (Cmd.dict []) with
      | sub cs => rw [hcmd] at hcne; simp [isNonemptyDict] at hcne
      | dict entries =>
        cases entries with
        | nil => rw [hcmd] at hcne; simp [isNonemptyDict] at hcne
        | cons kv more =>
          obtain ⟨k0, v⟩ := kv
          rw [hcmd] at hr hw
          simp only [resolveCmd] at hr
          cases hrv : resolveValues (goLook [] 0 ((data.map Prod.fst).flatten) j) (0 + j + 1) v with
          | none => rw [hrv] at hr; simp at hr
          | some v2 =>
            simp only [cmdPointerValues] at hw
            have hsome := resolveValues_pointers_isSome _ _ v v2 hrv w hw
            simp only [goLook] at hsome
            cases hld : lastDefBefore ((data.map Prod.fst).flatten) w (j + 1) with
            | none => rw [hld] at hsome; simp [List.lookup] at hsome
            | some t =>
              obtain ⟨ht, hdef⟩ := lastDefBefore_lt ((data.map Prod.fst).flatten) w (j + 1) t hld
              exact hundef t (by omega) hdef
    | error e =>
      obtain ⟨w2, he⟩ := update_refs_go_error_key ((data.map Prod.fst).flatten) [] 0 e hne
        (by omega) hup
      subst he
      exact ⟨w2, (generate_batch_error data (.keyError w2)).mpr hup⟩
  · intro db dr rh st cpq bpq ss bs data e hgen
    simp only [do_batch, bind, Except.bind, hgen, Except.mapError]

/-- C5 witness: a single command with an undefined `src = 7` pointer makes
batch assembly fail with a KeyError. -/
theorem c5_ref_resolution_failure_witness :
    ∃ w2, generate_batch [([Cmd.dict [("FindImage", ({ src := some 7 } : CmdValues))]], [])]
      = .error (.keyError w2) := by
  apply c5_ref_resolution_failure.1
  · decide
  · decide
  · refine ⟨0, by decide, 7, by decide, ?_⟩
    intro t ht
    have ht0 : t = 0 := by omega
    subst ht0
    decide

theorem update_refs_go_cons_ok (updates : List (Nat × Nat)) (i : Nat) (k0 : String)
    (v : CmdValues) (more : List (String × CmdValues)) (rest : List Cmd)
    (v2 : CmdValues) (u2 : List (Nat × Nat))
    (hu : updateCmdValues updates i v = .ok (v2, u2)) :
    update_refs_go updates i (Cmd.dict ((k0, v) :: more) :: rest)
      = Except.map (fun rest2 => Cmd.dict ((k0, v2) :: more) :: rest2)
          (update_refs_go u2 (i + 1) rest) := by
  simp only [update_refs_go, bind, Except.bind, hu]
  cases update_refs_go u2 (i + 1) rest <;> rfl

theorem update_refs_go_cons_err (updates : List (Nat × Nat)) (i : Nat) (k0 : String)
    (v : CmdValues) (more : List (String × CmdValues)) (rest : List Cmd) (e : RefError)
    (hu : updateCmdValues updates i v = .error e) :
    update_refs_go updates i (Cmd.dict ((k0, v) :: more) :: rest) = .error e := by
  simp only [update_refs_go, bind, Except.bind, hu]

theorem c9_step_ok (updates : List (Nat × Nat)) (i : Nat) (hbi : i + 1 < 100000) :
    updateCmdValues updates i ({ ref0 := some 1 } : CmdValues)
      = .ok (({ ref0 := some (i + 1) } : CmdValues), (1, i + 1) :: updates) := by
  simp [updateCmdValues, applyRef0, hbi, updatePointerFields, applyImage, applyVideo,
    applyICT, applyConnect, applySrc, applyDst, applyRefField, bind, Except.bind]

theorem c9_step_err (updates : List (Nat × Nat)) (i : Nat) (hbi : ¬i + 1 < 100000) :
    updateCmdValues updates i ({ ref0 := some 1 } : CmdValues) = .error .assertError := by
  simp [updateCmdValues, applyRef0, hbi, bind, Except.bind]

/-- C9 helper: a batch of `n + 1` consecutive ref-defining commands starting
at index `i` with `i + n + 1` at or above 100000 trips the assertion. -/
theorem c9_replicate_assert :
    ∀ (n i : Nat) (updates : List (Nat × Nat)), 100000 ≤ i + n + 1 →
      update_refs_go updates i (List.replicate (n + 1) c9Cmd) = .error .assertError := by
  intro n
  induction n with
  | zero =>
    intro i updates hb
    exact update_refs_go_cons_err updates i "AddEntity" ({ ref0 := some 1 } : CmdValues)
      [] [] .assertError (c9_step_err updates i (by omega))
  | succ n ih =>
    intro i updates hb
    rw [List.replicate_succ]
    by_cases hbi : i + 1 < 100000
    · have hgoal : update_refs_go updates i (c9Cmd :: List.replicate (n + 1) c9Cmd)
          = Except.map
              (fun rest2 =>
                Cmd.dict [("AddEntity", ({ ref0 := some (i + 1) } : CmdValues))] :: rest2)
              (update_refs_go ((1, i + 1) :: updates) (i + 1) (List.replicate (n + 1) c9Cmd)) :=
        update_refs_go_cons_ok updates i "AddEntity" ({ ref0 := some 1 } : CmdValues) []
          (List.replicate (n + 1) c9Cmd) ({ ref0 := some (i + 1) } : CmdValues)
          ((1, i + 1) :: updates) (c9_step_ok updates i hbi)
      rw [hgoal, ih (i + 1) ((1, i + 1) :: updates) (by omega)]
      rfl
    · exact update_refs_go_cons_err updates i "AddEntity" ({ ref0 := some 1 } : CmdValues)
        [] (List.replicate (n + 1) c9Cmd) .assertError (c9_step_err updates i hbi)

/-- C9: in any batch of fewer than 100000 commands the `< 100000` assertion
never fires, and a batch whose 100000-th command defines a ref aborts
assembly with the assertion failure. -/
theorem c9_ref_position_bound :
    (∀ (data : List (List Cmd × List Blob)),
      ((data.map Prod.fst).flatten).length < 100000 →
      generate_batch data ≠ .error .assertError) ∧
    generate_batch c9Data = .error .assertError := by
  constructor
  · intro data hlen h
    have hup : update_refs ((data.map Prod.fst).flatten) = .error .assertError :=
      (generate_batch_error data .assertError).mp h
    rcases update_refs_go_error ((data.map Prod.fst).flatten) [] 0 .assertError
      (by omega) hup with h1 | ⟨w, h2⟩
    · exact RefError.noConfusion h1
    · exact RefError.noConfusion h2
  · have h99 := c9_replicate_assert 99999 0 [] (by omega)
    have hflat : (c9Data.map Prod.fst).flatten = List.replicate 100000 c9Cmd := by
      show List.replicate 100000 c9Cmd ++ [] = List.replicate 100000 c9Cmd
      exact List.append_nil _
    refine (generate_batch_error c9Data .assertError).mpr ?_
    rw [update_refs, hflat]
    exact h99

/-- C9 witness: a two-command batch stays far below the bound, so assembly
never aborts with the assertion. -/
theorem c9_ref_position_bound_witness :
    ((c2Data.map Prod.fst).flatten).length < 100000 ∧
    generate_batch c2Data ≠ .error .assertError :=
  ⟨by decide, c9_ref_position_bound.1 c2Data (by decide)⟩

/-- C7 counterexample: with 10 records, batchSize 4 and 2 workers, if the
batch that fails entirely is the final 2-record batch (the other two full
batches succeed), the error counter is 1 but succeeded_queries sums to 8,
not 6 — so the claim as stated (any single failing batch) is false. -/
theorem c7_counterexample :
    (run (c7Oracle 8) c7Records false none false 1 0 [0, 2] 4 2).times_arr.length = 3 ∧
    (run (c7Oracle 8) c7Records false none false 1 0 [0, 2] 4 2).error_counter = 1 ∧
    do_batch (c7Oracle 8) false none false 1 0 [0, 2] 0 ((c7Records.drop 0).take 4)
      = .ok (5, ⟨4, 4, 0⟩, 0) ∧
    do_batch (c7Oracle 8) false none false 1 0 [0, 2] 4 ((c7Records.drop 4).take 4)
      = .ok (5, ⟨4, 4, 0⟩, 0) ∧
    do_batch (c7Oracle 8) false none false 1 0 [0, 2] 8 ((c7Records.drop 8).take 2)
      = .ok (0, ⟨0, 0, 0⟩, 1) ∧
    get_succeeded_queries (run (c7Oracle 8) c7Records false none false 1 0 [0, 2] 4 2) = 8 ∧
    ¬get_succeeded_queries (run (c7Oracle 8) c7Records false none false 1 0 [0, 2] 4 2) = 6 := by
  have hrun : run (c7Oracle 8) c7Records false none false 1 0 [0, 2] 4 2
      = ⟨1, [5, 5, 0], [⟨4, 4, 0⟩, ⟨4, 4, 0⟩, ⟨0, 0, 0⟩]⟩ := by rfl
  refine ⟨by rw [hrun]; rfl, by rw [hrun], by rfl, by rfl, by rfl, ?_, ?_⟩
  · rw [hrun]
    rfl
  · rw [hrun]
    decide

/-- C7 (amended): 10 records with batchSize 4 and 2 workers execute 3
batches in total; when the second (full, 4-record) batch fails entirely
(result 1) and the other batches succeed, the error counter is 1,
succeeded_queries sums to 6, and the error percentage — errors divided by
total recorded batches times 100 — is exactly 100/3, i.e. 33.33 when
displayed with two decimals. -/
theorem c7_run_statistics :
    (run (c7Oracle 4) c7Records false none false 1 0 [0, 2] 4 2).times_arr.length = 3 ∧
    (run (c7Oracle 4) c7Records false none false 1 0 [0, 2] 4 2).error_counter = 1 ∧
    get_succeeded_queries (run (c7Oracle 4) c7Records false none false 1 0 [0, 2] 4 2) = 6 ∧
    do_batch (c7Oracle 4) false none false 1 0 [0, 2] 0 ((c7Records.drop 0).take 4)
      = .ok (5, ⟨4, 4, 0⟩, 0) ∧
    do_batch (c7Oracle 4) false none false 1 0 [0, 2] 4 ((c7Records.drop 4).take 4)
      = .ok (0, ⟨0, 0, 0⟩, 1) ∧
    do_batch (c7Oracle 4) false none false 1 0 [0, 2] 8 ((c7Records.drop 8).take 2)
      = .ok (5, ⟨2, 2, 0⟩, 0) ∧
    err_perc (run (c7Oracle 4) c7Records false none false 1 0 [0, 2] 4 2) = 100 / 3 ∧
    (3333 : ℚ) / 100 ≤ err_perc (run (c7Oracle 4) c7Records false none false 1 0 [0, 2] 4 2) ∧
    err_perc (run (c7Oracle 4) c7Records false none false 1 0 [0, 2] 4 2) < 3334 / 100 := by
  have hrun : run (c7Oracle 4) c7Records false none false 1 0 [0, 2] 4 2
      = ⟨1, [5, 0, 5], [⟨4, 4, 0⟩, ⟨0, 0, 0⟩, ⟨2, 2, 0⟩]⟩ := by rfl
  have hperc : err_perc (run (c7Oracle 4) c7Records false none false 1 0 [0, 2] 4 2)
      = 100 / 3 := by
    rw [hrun]
    norm_num [err_perc]
  refine ⟨by rw [hrun]; rfl, by rw [hrun], ?_, by rfl, by rfl, by rfl, hperc, ?_, ?_⟩
  · rw [hrun]
    rfl
  · rw [hperc]
    norm_num
  · rw [hperc]
    norm_num

end ApertureDB
